import Mathlib

/-! # tacplus: a TACACS+ authorization client

A shallow embedding of `src/tacplus.c` and the properties of its
authorization workflow.

* The protocol constants and accessor macros come from `<taclib.h>`, which is
  not part of the repository: they are the parameter `TacLib`.
* The TACACS+ client library (`tac_open` ... `tac_close`) is the parameter
  `Collab`, a deterministic state machine over the handle's state.
* `getopt(3)` is the C library's: `main` takes the sequence of results that
  `getopt` hands to the option loop, and the positional arguments that are left
  after `argc -= optind; argv += optind`.
* A run of `main` ends in an `Exit`: the exit status, the collaborator calls
  made (with what they returned), and what was written to standard error.
-/

namespace Tacplus

/-! ## Data model -/

/-- One row of a symbol table: `struct lookup { const char *key; int val; }`. -/
structure Lookup where
  key : String
  val : Int
  deriving DecidableEq

/-- The constants and accessor macros of `<taclib.h>` that `tacplus.c` uses.
The header belongs to the TACACS+ client library, so its values are a
parameter of the development. -/
structure TacLib where
  TAC_AUTHEN_METH_NOT_SET : Int
  TAC_AUTHEN_METH_NONE : Int
  TAC_AUTHEN_METH_KRB5 : Int
  TAC_AUTHEN_METH_LINE : Int
  TAC_AUTHEN_METH_ENABLE : Int
  TAC_AUTHEN_METH_LOCAL : Int
  TAC_AUTHEN_METH_TACACSPLUS : Int
  TAC_AUTHEN_METH_RCMD : Int
  TAC_AUTHEN_TYPE_ASCII : Int
  TAC_AUTHEN_TYPE_PAP : Int
  TAC_AUTHEN_TYPE_CHAP : Int
  TAC_AUTHEN_TYPE_ARAP : Int
  TAC_AUTHEN_TYPE_MSCHAP : Int
  TAC_AUTHEN_SVC_NONE : Int
  TAC_AUTHEN_SVC_LOGIN : Int
  TAC_AUTHEN_SVC_ENABLE : Int
  TAC_AUTHEN_SVC_PPP : Int
  TAC_AUTHEN_SVC_ARAP : Int
  TAC_AUTHEN_SVC_PT : Int
  TAC_AUTHEN_SVC_RCMD : Int
  TAC_AUTHEN_SVC_X25 : Int
  TAC_AUTHEN_SVC_NASI : Int
  TAC_AUTHEN_SVC_FWPROXY : Int
  TAC_AUTHOR_STATUS : Int → Int
  TAC_AUTHEN_AV_COUNT : Int → Int
  TAC_AUTHOR_STATUS_PASS_ADD : Int
  TAC_AUTHOR_STATUS_PASS_REPL : Int
  TAC_AUTHOR_STATUS_FAIL : Int
  TAC_AUTHOR_STATUS_ERROR : Int

/-- The fallback of lines 15-18: `#define TAC_AUTHEN_TYPE_NOT_SET 0x00`. -/
def TAC_AUTHEN_TYPE_NOT_SET : Int := 0x00

/-- The table `methods[]` (lines 30-40), without its `{ 0 }` terminator. -/
def methods (L : TacLib) : List Lookup :=
  [ ⟨"notset", L.TAC_AUTHEN_METH_NOT_SET⟩,
    ⟨"none", L.TAC_AUTHEN_METH_NONE⟩,
    ⟨"krb5", L.TAC_AUTHEN_METH_KRB5⟩,
    ⟨"line", L.TAC_AUTHEN_METH_LINE⟩,
    ⟨"enable", L.TAC_AUTHEN_METH_ENABLE⟩,
    ⟨"local", L.TAC_AUTHEN_METH_LOCAL⟩,
    ⟨"tacacsplus", L.TAC_AUTHEN_METH_TACACSPLUS⟩,
    ⟨"rcmd", L.TAC_AUTHEN_METH_RCMD⟩ ]

/-- The table `types[]` (lines 42-50), without its `{ 0 }` terminator. -/
def types (L : TacLib) : List Lookup :=
  [ ⟨"notset", TAC_AUTHEN_TYPE_NOT_SET⟩,
    ⟨"ascii", L.TAC_AUTHEN_TYPE_ASCII⟩,
    ⟨"pap", L.TAC_AUTHEN_TYPE_PAP⟩,
    ⟨"chap", L.TAC_AUTHEN_TYPE_CHAP⟩,
    ⟨"arap", L.TAC_AUTHEN_TYPE_ARAP⟩,
    ⟨"mschap", L.TAC_AUTHEN_TYPE_MSCHAP⟩ ]

/-- The table `services[]` (lines 52-64), without its `{ 0 }` terminator. -/
def services (L : TacLib) : List Lookup :=
  [ ⟨"none", L.TAC_AUTHEN_SVC_NONE⟩,
    ⟨"login", L.TAC_AUTHEN_SVC_LOGIN⟩,
    ⟨"enable", L.TAC_AUTHEN_SVC_ENABLE⟩,
    ⟨"ppp", L.TAC_AUTHEN_SVC_PPP⟩,
    ⟨"arap", L.TAC_AUTHEN_SVC_ARAP⟩,
    ⟨"pt", L.TAC_AUTHEN_SVC_PT⟩,
    ⟨"rcmd", L.TAC_AUTHEN_SVC_RCMD⟩,
    ⟨"x25", L.TAC_AUTHEN_SVC_X25⟩,
    ⟨"nasi", L.TAC_AUTHEN_SVC_NASI⟩,
    ⟨"fwproxy", L.TAC_AUTHEN_SVC_FWPROXY⟩ ]

/-- The function `lookup` (lines 66-75): walk the table until the terminator,
return the value of the first row whose key `strcmp`s equal, else `-1`. -/
def lookup : List Lookup → String → Int
  | [], _ => -1
  | row :: table, key => if row.key = key then row.val else lookup table key

/-- The keys of a table, in table order. -/
def keys (table : List Lookup) : List String := table.map Lookup.key

/-- Every code stored in a table is non-negative. -/
def codesNonneg (table : List Lookup) : Prop := ∀ row ∈ table, 0 ≤ row.val

/-- The C library's `strchr`: the suffix of the string that starts at the first
occurrence of the character, or `none` for the null pointer. -/
def strchr (s : List Char) (c : Char) : Option (List Char) :=
  match s with
  | [] => none
  | x :: xs => if x = c then some (x :: xs) else strchr xs c

/-- One result of `getopt(argc, argv, "m:s:t:v")` other than the final `-1`:
the option character it returns and the `optarg` it sets. -/
structure Getopt where
  opt : Char
  optarg : String
  deriving DecidableEq

/-- The file-scope variables of lines 20-23. -/
structure Globals where
  method : Int
  type : Int
  service : Int
  verbose : Bool
  deriving DecidableEq

/-- The initial values of the file-scope variables (lines 20-23). -/
def Globals.initial (L : TacLib) : Globals :=
  { method := L.TAC_AUTHEN_METH_NOT_SET
    type := TAC_AUTHEN_TYPE_NOT_SET
    service := L.TAC_AUTHEN_SVC_NONE
    verbose := false }

/-- The TACACS+ client library, as a deterministic state machine over the state
`σ` of the handle. `tac_open` yields the fresh handle or `none` for `NULL`;
every other function takes the handle's state and returns the new state with
its C return value (`none` for a `NULL` string). -/
structure Collab (σ : Type) where
  tac_open : Option σ
  tac_config : σ → σ × Int
  tac_create_author : σ → Int → Int → Int → σ × Int
  tac_set_user : σ → String → σ × Int
  tac_set_av : σ → Int → String → σ × Int
  tac_send_author : σ → σ × Int
  tac_get_av : σ → Int → σ × Option String
  tac_strerror : σ → String

/-- A call into the TACACS+ client library, with its arguments (the handle
apart) and what it returned. -/
inductive Call where
  | tac_open (ok : Bool)
  | tac_config (ret : Int)
  | tac_create_author (method type service ret : Int)
  | tac_set_user (name : String) (ret : Int)
  | tac_set_av (flags : Int) (av : String) (ret : Int)
  | tac_send_author (ret : Int)
  | tac_get_av (i : Int) (ret : Option String)
  | tac_strerror
  | tac_close
  deriving DecidableEq

/-- Something written to standard error: the text of one `fprintf(stderr, ...)`,
or the message of `err` (which the C library follows with `strerror(errno)`) or
of `errx`. -/
inductive Out where
  | fprintf (s : String)
  | err (msg : String)
  | errx (msg : String)
  deriving DecidableEq

/-- How a run of the program ends: the exit status, the library calls made in
order, and the writes to standard error in order. -/
structure Exit where
  status : Int
  calls : List Call
  stderr : List Out
  deriving DecidableEq

/-- The run `e`, preceded by the library call `c`. -/
def called (c : Call) (e : Exit) : Exit := { e with calls := c :: e.calls }

/-- The run `e`, preceded by the write `o` to standard error. -/
def printed (o : Out) (e : Exit) : Exit := { e with stderr := o :: e.stderr }

/-- The C library's `exit(status)`. -/
def exit (status : Int) : Exit := ⟨status, [], []⟩

/-- The C library's `err(1, msg)`. -/
def err (msg : String) : Exit := printed (.err msg) (exit 1)

/-- The C library's `errx(1, msg)`. -/
def errx (msg : String) : Exit := printed (.errx msg) (exit 1)

/-- The loops of `usage` (lines 83-90): one `fprintf` per key, with `", %s"`
after the first. -/
def usageKeys : List Lookup → Nat → List Out
  | [], _ => []
  | row :: table, i =>
    .fprintf (if i > 0 then ", " ++ row.key else row.key) :: usageKeys table (i + 1)

/-- What `usage` writes to standard error (lines 80-91). -/
def usageText (L : TacLib) : List Out :=
  [ .fprintf "usage: tacplus [-v] [-m method] [-s service] [-t type] [attr=value [...]] name\n",
    .fprintf "\nmethod  = " ]
    ++ usageKeys (methods L) 0
    ++ [ .fprintf "\nservice = " ]
    ++ usageKeys (services L) 0
    ++ [ .fprintf "\ntype    = " ]
    ++ usageKeys (types L) 0
    ++ [ .fprintf "\n" ]

/-- The function `usage` (lines 77-93): write the usage message, `exit(1)`. -/
def usage (L : TacLib) : Exit := ⟨1, [], usageText L⟩

/-- The conversion `%2d` of `printf`: decimal, padded on the left with blanks
to a width of two. -/
def fmt_2d (i : Int) : String :=
  let s := toString i
  if s.length < 2 then " " ++ s else s

/-- The conversion `%#x` of `printf` on an `int` argument (read as a 32-bit
unsigned): hexadecimal with a `0x` in front, except for zero. -/
def fmt_hash_x (v : Int) : String :=
  let u := (v % 2 ^ 32).toNat
  if u = 0 then "0" else "0x" ++ String.mk (Nat.toDigits 16 u)

/-! ## The program -/

/-- The option loop of `main` (lines 103-123) over the results of `getopt`:
the variables after the loop, or `none` when an arm calls `usage()`. An arm
such as `if ((method = lookup(methods, optarg)) < 0) usage();` assigns the
result of `lookup` and tests it. -/
def optionLoop (L : TacLib) : Globals → List Getopt → Option Globals
  | g, [] => some g
  | g, o :: rest =>
    if o.opt = 'm' then
      if lookup (methods L) o.optarg < 0 then none
      else optionLoop L { g with method := lookup (methods L) o.optarg } rest
    else if o.opt = 's' then
      if lookup (services L) o.optarg < 0 then none
      else optionLoop L { g with service := lookup (services L) o.optarg } rest
    else if o.opt = 't' then
      if lookup (types L) o.optarg < 0 then none
      else optionLoop L { g with type := lookup (types L) o.optarg } rest
    else if o.opt = 'v' then
      optionLoop L { g with verbose := true } rest
    else
      none

/-- Lines 188-190: `tac_close(h); exit(0);`. -/
def cleanUp : Exit := called .tac_close (exit 0)

/-- The loop of lines 180-185, `for (int i = 0; i < TAC_AUTHEN_AV_COUNT(ret); i++)`,
followed by the clean up: the first argument is the number of iterations still
to run, `TAC_AUTHEN_AV_COUNT(ret) - i`. A library call returns the pair of the
handle's new state and the C return value. -/
def attributeLoop {σ : Type} (C : Collab σ) : Nat → Nat → σ → Exit
  | 0, _, _ => cleanUp
  | k + 1, i, h =>
    match (C.tac_get_av h i).2 with
    | none =>
      called (.tac_get_av i none) <| called .tac_strerror <|
        errx ("tac_get_av(" ++ toString i ++ "): " ++ C.tac_strerror (C.tac_get_av h i).1)
    | some av =>
      called (.tac_get_av i (some av)) <|
        printed (.fprintf (fmt_2d i ++ " " ++ av ++ "\n")) <|
          attributeLoop C k (i + 1) (C.tac_get_av h i).1

/-- Lines 178-190: print the attributes when verbose, clean up, `exit(0)`. -/
def printAttributes {σ : Type} (L : TacLib) (C : Collab σ) (verbose : Bool) (h : σ)
    (ret : Int) : Exit :=
  if verbose then attributeLoop C (L.TAC_AUTHEN_AV_COUNT ret).toNat 0 h else cleanUp

/-- The arms of the `switch` of lines 160-176. -/
inductive Outcome where
  | passAdd
  | passReplace
  | fail
  | error
  | unrecognized
  deriving DecidableEq

/-- The dispatch of `switch (TAC_AUTHOR_STATUS(ret))` (lines 160-176) on the
status `s`: the arm whose `case` label equals `s`, else `default`. -/
def classify (L : TacLib) (s : Int) : Outcome :=
  if s = L.TAC_AUTHOR_STATUS_PASS_ADD then .passAdd
  else if s = L.TAC_AUTHOR_STATUS_PASS_REPL then .passReplace
  else if s = L.TAC_AUTHOR_STATUS_FAIL then .fail
  else if s = L.TAC_AUTHOR_STATUS_ERROR then .error
  else .unrecognized

/-- Lines 159-190: the `switch` on `TAC_AUTHOR_STATUS(ret)` and what follows
it. -/
def checkResponse {σ : Type} (L : TacLib) (C : Collab σ) (verbose : Bool) (h : σ)
    (ret : Int) : Exit :=
  match classify L (L.TAC_AUTHOR_STATUS ret) with
  | .passAdd =>
    if verbose then
      printed (.fprintf "authorization passed (add)\n") (printAttributes L C verbose h ret)
    else printAttributes L C verbose h ret
  | .passReplace =>
    if verbose then
      printed (.fprintf "authorization passed (replace)\n") (printAttributes L C verbose h ret)
    else printAttributes L C verbose h ret
  | .fail => errx "authorization failed"
  | .error => errx "server error"
  | .unrecognized =>
    errx ("unrecognized server response: " ++ fmt_hash_x (L.TAC_AUTHOR_STATUS ret))

/-- Lines 155-190: send the request, then check the response. -/
def sendRequest {σ : Type} (L : TacLib) (C : Collab σ) (verbose : Bool) (h : σ) : Exit :=
  called (.tac_send_author (C.tac_send_author h).2) <|
    if (C.tac_send_author h).2 < 0 then
      called .tac_strerror <|
        errx ("tac_send_author(): " ++ C.tac_strerror (C.tac_send_author h).1)
    else checkResponse L C verbose (C.tac_send_author h).1 (C.tac_send_author h).2

/-- Lines 146-190: the loop `while (argc > 1)` that adds the av pairs, then the
rest of `main`. The loop tests and passes `*argv`, and its body changes `argc`
only: `argv` is the same list in every iteration and `*argv` its first
element. -/
def addAvPairs {σ : Type} (L : TacLib) (C : Collab σ) (verbose : Bool)
    (argv : List String) : Nat → σ → Exit
  | 0, h => sendRequest L C verbose h
  | 1, h => sendRequest L C verbose h
  | argc + 2, h =>
    if strchr (argv.headD "").data '=' = none then usage L
    else
      called (.tac_set_av 0 (argv.headD "") (C.tac_set_av h 0 (argv.headD "")).2) <|
        if (C.tac_set_av h 0 (argv.headD "")).2 < 0 then
          called .tac_strerror <|
            errx ("tac_set_av(): " ++ C.tac_strerror (C.tac_set_av h 0 (argv.headD "")).1)
        else addAvPairs L C verbose argv (argc + 1) (C.tac_set_av h 0 (argv.headD "")).1

/-- Lines 142-190: add the user name `argv[argc - 1]`, then the av pairs. -/
def setUser {σ : Type} (L : TacLib) (C : Collab σ) (g : Globals) (argv : List String)
    (h : σ) : Exit :=
  called (.tac_set_user (argv.getD (argv.length - 1) "")
      (C.tac_set_user h (argv.getD (argv.length - 1) "")).2) <|
    if (C.tac_set_user h (argv.getD (argv.length - 1) "")).2 < 0 then
      called .tac_strerror <|
        errx ("tac_set_user(): " ++
          C.tac_strerror (C.tac_set_user h (argv.getD (argv.length - 1) "")).1)
    else
      addAvPairs L C g.verbose argv argv.length
        (C.tac_set_user h (argv.getD (argv.length - 1) "")).1

/-- Lines 138-190: create the authorization request, then the rest. -/
def createAuthor {σ : Type} (L : TacLib) (C : Collab σ) (g : Globals) (argv : List String)
    (h : σ) : Exit :=
  called (.tac_create_author g.method g.type g.service
      (C.tac_create_author h g.method g.type g.service).2) <|
    if (C.tac_create_author h g.method g.type g.service).2 < 0 then
      called .tac_strerror <|
        errx ("tac_create_author(): " ++
          C.tac_strerror (C.tac_create_author h g.method g.type g.service).1)
    else setUser L C g argv (C.tac_create_author h g.method g.type g.service).1

/-- Lines 128-190 of `main`: what runs after the option loop, on the variables
`g` and the positional arguments `argv` (`argc` is their number). -/
def runAuthorization {σ : Type} (L : TacLib) (C : Collab σ) (g : Globals)
    (argv : List String) : Exit :=
  if argv.length < 1 then usage L
  else
    match C.tac_open with
    | none => called (.tac_open false) <| err "tac_open()"
    | some h =>
      called (.tac_open true) <| called (.tac_config (C.tac_config h).2) <|
        if (C.tac_config h).2 ≠ 0 then err "tac_config()"
        else createAuthor L C g argv (C.tac_config h).1

/-- The function `main` (lines 95-191), on the results `opts` of `getopt` and
the positional arguments `argv` left after `argv += optind`. -/
def main {σ : Type} (L : TacLib) (C : Collab σ) (opts : List Getopt)
    (argv : List String) : Exit :=
  match optionLoop L (Globals.initial L) opts with
  | none => usage L
  | some g => runAuthorization L C g argv

/-! ## Specification-side notions -/

/-- An option `-m`, `-s` or `-t` whose value is not a key of its symbol table. -/
@[reducible] def unknownValue (L : TacLib) (o : Getopt) : Prop :=
  (o.opt = 'm' ∧ o.optarg ∉ keys (methods L)) ∨
  (o.opt = 's' ∧ o.optarg ∉ keys (services L)) ∨
  (o.opt = 't' ∧ o.optarg ∉ keys (types L))

/-- Valid options: each is `-v`, or `-m`, `-s` or `-t` with a key of its symbol
table as its value. -/
@[reducible] def validOptions (L : TacLib) (opts : List Getopt) : Prop :=
  ∀ o ∈ opts,
    (o.opt = 'm' ∧ o.optarg ∈ keys (methods L)) ∨
    (o.opt = 's' ∧ o.optarg ∈ keys (services L)) ∨
    (o.opt = 't' ∧ o.optarg ∈ keys (types L)) ∨
    o.opt = 'v'

/-- The value given to the option `c` on the command line: the value of its
last occurrence, `none` when the option is omitted. -/
def optionValue (c : Char) (opts : List Getopt) : Option String :=
  ((opts.filter fun o => o.opt = c).getLast?).map Getopt.optarg

/-- The code of an option value in a table, an omitted option contributing the
default. -/
def resolve (table : List Lookup) (dflt : Int) : Option String → Int
  | none => dflt
  | some name => lookup table name

/-- The authorization profile `(method, type, service)` of the specification:
each of `-m`, `-t`, `-s` resolved on its own in its table. -/
def profile (L : TacLib) (opts : List Getopt) : Int × Int × Int :=
  (resolve (methods L) L.TAC_AUTHEN_METH_NOT_SET (optionValue 'm' opts),
   resolve (types L) TAC_AUTHEN_TYPE_NOT_SET (optionValue 't' opts),
   resolve (services L) L.TAC_AUTHEN_SVC_NONE (optionValue 's' opts))

/-- The calls that build the request: everything before `tac_send_author`. -/
def Call.isRequest : Call → Bool
  | .tac_open _ => true
  | .tac_config _ => true
  | .tac_create_author _ _ _ _ => true
  | .tac_set_user _ _ => true
  | .tac_set_av _ _ _ => true
  | _ => false

/-- The calls that set the session and the request up, and the error text of the
library: `tac_open`, `tac_config`, `tac_create_author`, `tac_set_user`,
`tac_strerror`. -/
def Call.isSetup : Call → Bool
  | .tac_open _ => true
  | .tac_config _ => true
  | .tac_create_author _ _ _ _ => true
  | .tac_set_user _ _ => true
  | .tac_strerror => true
  | _ => false

/-- The release discipline that the program has: a run ends with status 0 and
`tac_close` as its last call, made once, or with status 1 and no `tac_close`. -/
def Closes (e : Exit) : Prop :=
  (e.status = 0 ∧ ∃ pre, e.calls = pre ++ [Call.tac_close] ∧ Call.tac_close ∉ pre) ∨
  (e.status = 1 ∧ Call.tac_close ∉ e.calls)

/-- The calls `tac_get_av(h, i)` that return the strings `avs`, for `i` from
`start` on. -/
def getAvCalls (start : Nat) (avs : List String) : List Call :=
  (avs.enumFrom start).map fun p => Call.tac_get_av p.1 (some p.2)

/-- The lines `fprintf(stderr, "%2d %s\n", i, av)` for the strings `avs`, for
`i` from `start` on. -/
def attributeLines (start : Nat) (avs : List String) : List Out :=
  (avs.enumFrom start).map fun p => Out.fprintf (fmt_2d p.1 ++ " " ++ p.2 ++ "\n")

/-- The run `e` makes request-building calls only, then `tac_send_author`
returns `ret`, and from there on it is the run `e2`. -/
def SendsThen (ret : Int) (e2 e : Exit) : Prop :=
  ∃ pre, (∀ c ∈ pre, Call.isRequest c = true) ∧
    e.calls = pre ++ Call.tac_send_author ret :: e2.calls ∧
    e.status = e2.status ∧ e.stderr = e2.stderr

/-! ## Concrete inputs -/

/-- The values that FreeBSD gives the constants and macros in `<taclib.h>`. -/
def freebsd : TacLib where
  TAC_AUTHEN_METH_NOT_SET := 0x00
  TAC_AUTHEN_METH_NONE := 0x01
  TAC_AUTHEN_METH_KRB5 := 0x02
  TAC_AUTHEN_METH_LINE := 0x03
  TAC_AUTHEN_METH_ENABLE := 0x04
  TAC_AUTHEN_METH_LOCAL := 0x05
  TAC_AUTHEN_METH_TACACSPLUS := 0x06
  TAC_AUTHEN_METH_RCMD := 0x20
  TAC_AUTHEN_TYPE_ASCII := 1
  TAC_AUTHEN_TYPE_PAP := 2
  TAC_AUTHEN_TYPE_CHAP := 3
  TAC_AUTHEN_TYPE_ARAP := 4
  TAC_AUTHEN_TYPE_MSCHAP := 5
  TAC_AUTHEN_SVC_NONE := 0
  TAC_AUTHEN_SVC_LOGIN := 1
  TAC_AUTHEN_SVC_ENABLE := 2
  TAC_AUTHEN_SVC_PPP := 3
  TAC_AUTHEN_SVC_ARAP := 4
  TAC_AUTHEN_SVC_PT := 5
  TAC_AUTHEN_SVC_RCMD := 6
  TAC_AUTHEN_SVC_X25 := 7
  TAC_AUTHEN_SVC_NASI := 8
  TAC_AUTHEN_SVC_FWPROXY := 9
  TAC_AUTHOR_STATUS s := s % 256
  TAC_AUTHEN_AV_COUNT s := (s / 256) % 256
  TAC_AUTHOR_STATUS_PASS_ADD := 0x01
  TAC_AUTHOR_STATUS_PASS_REPL := 0x02
  TAC_AUTHOR_STATUS_FAIL := 0x10
  TAC_AUTHOR_STATUS_ERROR := 0x11

/-- A library all of whose calls succeed: `tac_send_author` returns `ret`, and
`tac_get_av(h, i)` the `i`-th string of `avs` (`NULL` past their end). -/
def scripted (ret : Int) (avs : List String) : Collab Unit where
  tac_open := some ()
  tac_config _ := ((), 0)
  tac_create_author _ _ _ _ := ((), 0)
  tac_set_user _ _ := ((), 0)
  tac_set_av _ _ _ := ((), 0)
  tac_send_author _ := ((), ret)
  tac_get_av _ i := ((), avs.get? i.toNat)
  tac_strerror _ := "No error"

/-! # Theorems -/

/-! ## The name resolver -/

theorem lookup_of_not_mem (table : List Lookup) (name : String)
    (h : name ∉ keys table) : lookup table name = -1 := by
  induction table with
  | nil => rfl
  | cons row table ih =>
    simp only [keys, List.map_cons, List.mem_cons, not_or] at h
    have hne : row.key ≠ name := fun e => h.1 e.symm
    simp only [lookup, hne, if_false]
    exact ih h.2

theorem lookup_of_mem_keys (table : List Lookup) (name : String)
    (h : name ∈ keys table) : ∃ row ∈ table, row.key = name ∧ lookup table name = row.val := by
  induction table with
  | nil => simp [keys] at h
  | cons row table ih =>
    by_cases hk : row.key = name
    · exact ⟨row, List.mem_cons_self _ _, hk, by simp [lookup, hk]⟩
    · have h2 : name ∈ keys table := by
        simp only [keys, List.map_cons, List.mem_cons] at h
        rcases h with h | h
        · exact absurd h.symm hk
        · exact h
      obtain ⟨r, hr, hrk, hrv⟩ := ih h2
      exact ⟨r, List.mem_cons_of_mem _ hr, hrk, by simp [lookup, hk, hrv]⟩

theorem lookup_of_mem_nodup (table : List Lookup) (hnd : (keys table).Nodup)
    (row : Lookup) (h : row ∈ table) : lookup table row.key = row.val := by
  induction table with
  | nil => simp at h
  | cons r table ih =>
    simp only [keys, List.map_cons, List.nodup_cons] at hnd
    rcases List.mem_cons.1 h with rfl | h2
    · simp [lookup]
    · have hne : r.key ≠ row.key := fun e => hnd.1 (e ▸ List.mem_map_of_mem _ h2)
      simp only [lookup, hne, if_false]
      exact ih hnd.2 h2

theorem lookup_neg_iff (table : List Lookup) (hnn : codesNonneg table) (name : String) :
    lookup table name < 0 ↔ name ∉ keys table := by
  constructor
  · intro hlt hmem
    obtain ⟨row, hr, _, hv⟩ := lookup_of_mem_keys table name hmem
    have := hnn row hr
    omega
  · intro h
    rw [lookup_of_not_mem table name h]
    decide

theorem keys_methods (L : TacLib) : keys (methods L) =
    ["notset", "none", "krb5", "line", "enable", "local", "tacacsplus", "rcmd"] := rfl

theorem keys_types (L : TacLib) : keys (types L) =
    ["notset", "ascii", "pap", "chap", "arap", "mschap"] := rfl

theorem keys_services (L : TacLib) : keys (services L) =
    ["none", "login", "enable", "ppp", "arap", "pt", "rcmd", "x25", "nasi", "fwproxy"] := rfl

theorem nodup_keys_methods (L : TacLib) : (keys (methods L)).Nodup := by
  rw [keys_methods]; decide

theorem nodup_keys_types (L : TacLib) : (keys (types L)).Nodup := by
  rw [keys_types]; decide

theorem nodup_keys_services (L : TacLib) : (keys (services L)).Nodup := by
  rw [keys_services]; decide

/-- C1. In each of the three symbol tables no key occurs twice, and for every
row of the table `lookup` on the row's key returns exactly the code of that
row. -/
theorem lookup_returns_paired_code (L : TacLib) :
    ((keys (methods L)).Nodup ∧ ∀ row ∈ methods L, lookup (methods L) row.key = row.val) ∧
    ((keys (types L)).Nodup ∧ ∀ row ∈ types L, lookup (types L) row.key = row.val) ∧
    ((keys (services L)).Nodup ∧
      ∀ row ∈ services L, lookup (services L) row.key = row.val) :=
  ⟨⟨nodup_keys_methods L, lookup_of_mem_nodup _ (nodup_keys_methods L)⟩,
   ⟨nodup_keys_types L, lookup_of_mem_nodup _ (nodup_keys_types L)⟩,
   ⟨nodup_keys_services L, lookup_of_mem_nodup _ (nodup_keys_services L)⟩⟩

/-- C2. When every code stored in the three symbol tables is non-negative, then
in each table: a string that is not a key gives `-1`; the result of `lookup` is
negative exactly for the strings that are not keys; and for a string that is
not a key the result is the code of no row. The empty string, a prefix of a key
and a key in another letter case are such strings. -/
theorem lookup_absent_is_not_found (L : TacLib)
    (hnn : ∀ table ∈ [methods L, types L, services L], codesNonneg table)
    (name : String) :
    (∀ table ∈ [methods L, types L, services L],
      (name ∉ keys table → lookup table name = -1) ∧
      (lookup table name < 0 ↔ name ∉ keys table) ∧
      (name ∉ keys table → ∀ row ∈ table, lookup table name ≠ row.val)) ∧
    (∀ table ∈ [methods L, types L, services L], lookup table "" = -1) ∧
    lookup (methods L) "tacacs" = -1 ∧ lookup (methods L) "KRB5" = -1 ∧
    lookup (types L) "asci" = -1 ∧ lookup (types L) "Pap" = -1 ∧
    lookup (services L) "log" = -1 ∧ lookup (services L) "LOGIN" = -1 := by
  refine ⟨fun table ht => ⟨lookup_of_not_mem table name, lookup_neg_iff table (hnn table ht) name,
    fun h row hr e => ?_⟩, ?_, ?_⟩
  · have h1 := lookup_of_not_mem table name h
    have h2 := hnn table ht row hr
    omega
  · intro table ht
    simp only [List.mem_cons, List.mem_singleton, List.not_mem_nil, or_false] at ht
    rcases ht with rfl | rfl | rfl
    · exact lookup_of_not_mem _ _ (by rw [keys_methods]; decide)
    · exact lookup_of_not_mem _ _ (by rw [keys_types]; decide)
    · exact lookup_of_not_mem _ _ (by rw [keys_services]; decide)
  · exact ⟨lookup_of_not_mem _ _ (by rw [keys_methods]; decide),
      lookup_of_not_mem _ _ (by rw [keys_methods]; decide),
      lookup_of_not_mem _ _ (by rw [keys_types]; decide),
      lookup_of_not_mem _ _ (by rw [keys_types]; decide),
      lookup_of_not_mem _ _ (by rw [keys_services]; decide),
      lookup_of_not_mem _ _ (by rw [keys_services]; decide)⟩

theorem freebsd_codesNonneg :
    ∀ table ∈ [methods freebsd, types freebsd, services freebsd], codesNonneg table := by
  intro table ht
  simp only [List.mem_cons, List.mem_singleton, List.not_mem_nil, or_false] at ht
  rcases ht with rfl | rfl | rfl <;> (unfold codesNonneg; decide)

/-- Witness for C2: with the FreeBSD codes, `"Notset"` is not a key of `methods`
and `lookup` gives `-1` for it, a value that is the code of no row. -/
theorem lookup_absent_is_not_found_witness :
    (∀ table ∈ [methods freebsd, types freebsd, services freebsd], codesNonneg table) ∧
    lookup (methods freebsd) "Notset" = -1 ∧
    (lookup (methods freebsd) "Notset" < 0 ↔ "Notset" ∉ keys (methods freebsd)) :=
  ⟨freebsd_codesNonneg,
   ((lookup_absent_is_not_found freebsd freebsd_codesNonneg "Notset").1 (methods freebsd)
      (List.mem_cons_self _ _)).1 (by decide),
   ((lookup_absent_is_not_found freebsd freebsd_codesNonneg "Notset").1 (methods freebsd)
      (List.mem_cons_self _ _)).2.1⟩

/-! ## The option loop -/

theorem optionLoop_unknownValue (L : TacLib) (opts : List Getopt)
    (h : ∃ o ∈ opts, unknownValue L o) (g : Globals) : optionLoop L g opts = none := by
  induction opts generalizing g with
  | nil => simp at h
  | cons o rest ih =>
    by_cases hbad : unknownValue L o
    · rcases hbad with ⟨ho, hk⟩ | ⟨ho, hk⟩ | ⟨ho, hk⟩
      · simp [optionLoop, ho, lookup_of_not_mem _ _ hk]
      · simp [optionLoop, ho, lookup_of_not_mem _ _ hk]
      · simp [optionLoop, ho, lookup_of_not_mem _ _ hk]
    · have hrest : ∃ o ∈ rest, unknownValue L o := by
        obtain ⟨o2, ho2, hb⟩ := h
        rcases List.mem_cons.1 ho2 with rfl | hmem
        · exact absurd hb hbad
        · exact ⟨o2, hmem, hb⟩
      unfold optionLoop
      split_ifs <;> first | rfl | exact ih hrest _

theorem optionValue_cons (c : Char) (o : Getopt) (rest : List Getopt) :
    optionValue c (o :: rest) =
      match optionValue c rest with
      | some v => some v
      | none => if o.opt = c then some o.optarg else none := by
  unfold optionValue
  by_cases hc : o.opt = c
  · simp only [List.filter_cons, hc, decide_True, if_true]
    cases hf : List.filter (fun o => decide (o.opt = c)) rest with
    | nil => simp
    | cons x xs =>
      have hy := List.getLast?_eq_getLast (x :: xs) (List.cons_ne_nil x xs)
      rw [List.getLast?_cons_cons]
      simp [hy]
  · simp only [List.filter_cons, hc, decide_False, if_false]
    cases hf : List.filter (fun o => decide (o.opt = c)) rest with
    | nil => simp
    | cons x xs =>
      have hy := List.getLast?_eq_getLast (x :: xs) (List.cons_ne_nil x xs)
      simp [hy]

theorem resolve_optionValue_cons (table : List Lookup) (dflt : Int) (c : Char) (o : Getopt)
    (rest : List Getopt) :
    resolve table dflt (optionValue c (o :: rest)) =
      resolve table (if o.opt = c then lookup table o.optarg else dflt)
        (optionValue c rest) := by
  rw [optionValue_cons]
  cases optionValue c rest with
  | some v => simp [resolve]
  | none => by_cases hc : o.opt = c <;> simp [resolve, hc]

theorem optionLoop_some (L : TacLib) (opts : List Getopt) (g g2 : Globals)
    (h : optionLoop L g opts = some g2) :
    g2.method = resolve (methods L) g.method (optionValue 'm' opts) ∧
    g2.type = resolve (types L) g.type (optionValue 't' opts) ∧
    g2.service = resolve (services L) g.service (optionValue 's' opts) ∧
    g2.verbose = (g.verbose || opts.any fun o => o.opt = 'v') := by
  induction opts generalizing g with
  | nil =>
    simp only [optionLoop, Option.some.injEq] at h
    subst h
    simp [optionValue, resolve]
  | cons o rest ih =>
    simp only [resolve_optionValue_cons]
    unfold optionLoop at h
    have hsm : ¬ ('s' = 'm') := by decide
    have htm : ¬ ('t' = 'm') := by decide
    have hts : ¬ ('t' = 's') := by decide
    have hvm : ¬ ('v' = 'm') := by decide
    have hvs : ¬ ('v' = 's') := by decide
    have hvt : ¬ ('v' = 't') := by decide
    by_cases hm : o.opt = 'm'
    · simp only [hm, if_true] at h
      split_ifs at h
      have := ih _ h
      simpa [hm] using this
    by_cases hs : o.opt = 's'
    · simp only [hs, hsm, if_true, if_false] at h
      split_ifs at h
      have := ih _ h
      simpa [hs, hsm] using this
    by_cases ht : o.opt = 't'
    · simp only [ht, htm, hts, if_true, if_false] at h
      split_ifs at h
      have := ih _ h
      simpa [ht, htm, hts] using this
    by_cases hv : o.opt = 'v'
    · simp only [hv, hvm, hvs, hvt, if_true, if_false] at h
      have := ih _ h
      simpa [hv, hvm, hvs, hvt] using this
    · simp [hm, hs, ht, hv] at h

theorem optionLoop_valid (L : TacLib)
    (hnn : ∀ table ∈ [methods L, types L, services L], codesNonneg table)
    (opts : List Getopt) (hv : validOptions L opts) (g : Globals) :
    ∃ g2, optionLoop L g opts = some g2 := by
  induction opts generalizing g with
  | nil => exact ⟨g, rfl⟩
  | cons o rest ih =>
    have hrest : validOptions L rest := fun o2 ho2 => hv o2 (List.mem_cons_of_mem _ ho2)
    have key : ∀ table ∈ [methods L, types L, services L], ∀ name ∈ keys table,
        ¬ lookup table name < 0 := fun table ht name hn hlt =>
      (lookup_neg_iff table (hnn table ht) name).1 hlt hn
    unfold optionLoop
    rcases hv o (List.mem_cons_self _ _) with ⟨ho, hk⟩ | ⟨ho, hk⟩ | ⟨ho, hk⟩ | ho
    · have := key (methods L) (by simp) _ hk
      simp only [ho, if_true, this, if_false]
      exact ih hrest _
    · have := key (services L) (by simp) _ hk
      have h1s : ¬ ('s' = 'm') := by decide
      simp only [ho, h1s, if_true, this, if_false]
      exact ih hrest _
    · have := key (types L) (by simp) _ hk
      have h1s : ¬ ('t' = 'm') := by decide
      have h2s : ¬ ('t' = 's') := by decide
      simp only [ho, h1s, h2s, if_true, this, if_false]
      exact ih hrest _
    · have h1s : ¬ ('v' = 'm') := by decide
      have h2s : ¬ ('v' = 's') := by decide
      have h3s : ¬ ('v' = 't') := by decide
      simp only [ho, h1s, h2s, h3s, if_true, if_false]
      exact ih hrest _

/-- C7. When the value given to some `-m`, `-s` or `-t` is not a key of the
option's symbol table, then whatever the other options, the positional
arguments and the library are, `main` writes the usage message and exits with
status 1 without a single call into the library. -/
theorem unknown_option_value_exits_before_any_call {σ : Type} (L : TacLib) (C : Collab σ)
    (opts : List Getopt) (argv : List String) (h : ∃ o ∈ opts, unknownValue L o) :
    (main L C opts argv).status = 1 ∧ (main L C opts argv).calls = [] ∧
    (main L C opts argv).stderr = usageText L := by
  simp [main, optionLoop_unknownValue L opts h, usage]

/-- Witness for C7: `-v -m bogus a=1 name` against a library that would
succeed. -/
theorem unknown_option_value_exits_before_any_call_witness :
    (∃ o ∈ [Getopt.mk 'v' "", Getopt.mk 'm' "bogus"], unknownValue freebsd o) ∧
    (main freebsd (scripted 1 []) [Getopt.mk 'v' "", Getopt.mk 'm' "bogus"]
      ["a=1", "name"]).status = 1 ∧
    (main freebsd (scripted 1 []) [Getopt.mk 'v' "", Getopt.mk 'm' "bogus"]
      ["a=1", "name"]).calls = [] :=
  ⟨by decide,
   (unknown_option_value_exits_before_any_call freebsd (scripted 1 [])
      [Getopt.mk 'v' "", Getopt.mk 'm' "bogus"] ["a=1", "name"] (by decide)).1,
   (unknown_option_value_exits_before_any_call freebsd (scripted 1 [])
      [Getopt.mk 'v' "", Getopt.mk 'm' "bogus"] ["a=1", "name"] (by decide)).2.1⟩

/-! ## Runs -/

@[simp] theorem called_status (c : Call) (e : Exit) : (called c e).status = e.status := rfl
@[simp] theorem called_calls (c : Call) (e : Exit) : (called c e).calls = c :: e.calls := rfl
@[simp] theorem called_stderr (c : Call) (e : Exit) : (called c e).stderr = e.stderr := rfl
@[simp] theorem printed_status (o : Out) (e : Exit) : (printed o e).status = e.status := rfl
@[simp] theorem printed_calls (o : Out) (e : Exit) : (printed o e).calls = e.calls := rfl
@[simp] theorem printed_stderr (o : Out) (e : Exit) :
    (printed o e).stderr = o :: e.stderr := rfl
@[simp] theorem exit_status (n : Int) : (exit n).status = n := rfl
@[simp] theorem exit_calls (n : Int) : (exit n).calls = [] := rfl
@[simp] theorem exit_stderr (n : Int) : (exit n).stderr = [] := rfl
@[simp] theorem err_status (m : String) : (err m).status = 1 := rfl
@[simp] theorem err_calls (m : String) : (err m).calls = [] := rfl
@[simp] theorem err_stderr (m : String) : (err m).stderr = [.err m] := rfl
@[simp] theorem errx_status (m : String) : (errx m).status = 1 := rfl
@[simp] theorem errx_calls (m : String) : (errx m).calls = [] := rfl
@[simp] theorem errx_stderr (m : String) : (errx m).stderr = [.errx m] := rfl
@[simp] theorem usage_status (L : TacLib) : (usage L).status = 1 := rfl
@[simp] theorem usage_calls (L : TacLib) : (usage L).calls = [] := rfl
@[simp] theorem usage_stderr (L : TacLib) : (usage L).stderr = usageText L := rfl
@[simp] theorem cleanUp_status : cleanUp.status = 0 := rfl
@[simp] theorem cleanUp_calls : cleanUp.calls = [.tac_close] := rfl
@[simp] theorem cleanUp_stderr : cleanUp.stderr = [] := rfl

/-! ### The release discipline -/

theorem closes_called (c : Call) (e : Exit) (hc : c ≠ .tac_close) (h : Closes e) :
    Closes (called c e) := by
  rcases h with ⟨hs, pre, hp, hn⟩ | ⟨hs, hn⟩
  · refine Or.inl ⟨hs, c :: pre, by simp [hp], ?_⟩
    simp only [List.mem_cons, not_or]
    exact ⟨fun e => hc e.symm, hn⟩
  · refine Or.inr ⟨hs, ?_⟩
    simp only [called_calls, List.mem_cons, not_or]
    exact ⟨fun e => hc e.symm, hn⟩

theorem closes_printed (o : Out) (e : Exit) (h : Closes e) : Closes (printed o e) := h

theorem closes_err (m : String) : Closes (err m) := Or.inr ⟨rfl, by simp⟩

theorem closes_errx (m : String) : Closes (errx m) := Or.inr ⟨rfl, by simp⟩

theorem closes_usage (L : TacLib) : Closes (usage L) := Or.inr ⟨rfl, by simp⟩

theorem closes_cleanUp : Closes cleanUp := Or.inl ⟨rfl, [], rfl, by simp⟩

theorem closes_attributeLoop {σ : Type} (C : Collab σ) (k i : Nat) (h : σ) :
    Closes (attributeLoop C k i h) := by
  induction k generalizing i h with
  | zero => exact closes_cleanUp
  | succ k ih =>
    unfold attributeLoop
    split
    · exact closes_called _ _ (by simp) (closes_called _ _ (by simp) (closes_errx _))
    · exact closes_called _ _ (by simp) (closes_printed _ _ (ih _ _))

theorem closes_printAttributes {σ : Type} (L : TacLib) (C : Collab σ) (v : Bool) (h : σ)
    (ret : Int) : Closes (printAttributes L C v h ret) := by
  unfold printAttributes
  split
  · exact closes_attributeLoop _ _ _ _
  · exact closes_cleanUp

theorem closes_checkResponse {σ : Type} (L : TacLib) (C : Collab σ) (v : Bool) (h : σ)
    (ret : Int) : Closes (checkResponse L C v h ret) := by
  unfold checkResponse
  split
  · split
    · exact closes_printed _ _ (closes_printAttributes _ _ _ _ _)
    · exact closes_printAttributes _ _ _ _ _
  · split
    · exact closes_printed _ _ (closes_printAttributes _ _ _ _ _)
    · exact closes_printAttributes _ _ _ _ _
  · exact closes_errx _
  · exact closes_errx _
  · exact closes_errx _

theorem closes_sendRequest {σ : Type} (L : TacLib) (C : Collab σ) (v : Bool) (h : σ) :
    Closes (sendRequest L C v h) := by
  unfold sendRequest
  refine closes_called _ _ (by simp) ?_
  split
  · exact closes_called _ _ (by simp) (closes_errx _)
  · exact closes_checkResponse _ _ _ _ _

theorem closes_addAvPairs {σ : Type} (L : TacLib) (C : Collab σ) (v : Bool)
    (argv : List String) (argc : Nat) (h : σ) : Closes (addAvPairs L C v argv argc h) := by
  induction argc using Nat.strong_induction_on generalizing h with
  | _ argc ih =>
    match argc with
    | 0 => exact closes_sendRequest _ _ _ _
    | 1 => exact closes_sendRequest _ _ _ _
    | n + 2 =>
      unfold addAvPairs
      split
      · exact closes_usage _
      · refine closes_called _ _ (by simp) ?_
        split
        · exact closes_called _ _ (by simp) (closes_errx _)
        · exact ih (n + 1) (by omega) _

theorem closes_setUser {σ : Type} (L : TacLib) (C : Collab σ) (g : Globals)
    (argv : List String) (h : σ) : Closes (setUser L C g argv h) := by
  unfold setUser
  refine closes_called _ _ (by simp) ?_
  split
  · exact closes_called _ _ (by simp) (closes_errx _)
  · exact closes_addAvPairs _ _ _ _ _ _

theorem closes_createAuthor {σ : Type} (L : TacLib) (C : Collab σ) (g : Globals)
    (argv : List String) (h : σ) : Closes (createAuthor L C g argv h) := by
  unfold createAuthor
  refine closes_called _ _ (by simp) ?_
  split
  · exact closes_called _ _ (by simp) (closes_errx _)
  · exact closes_setUser _ _ _ _ _

theorem closes_runAuthorization {σ : Type} (L : TacLib) (C : Collab σ) (g : Globals)
    (argv : List String) : Closes (runAuthorization L C g argv) := by
  unfold runAuthorization
  split
  · exact closes_usage _
  · split
    · exact closes_called _ _ (by simp) (closes_err _)
    · refine closes_called _ _ (by simp) (closes_called _ _ (by simp) ?_)
      split
      · exact closes_err _
      · exact closes_createAuthor _ _ _ _ _

theorem closes_main {σ : Type} (L : TacLib) (C : Collab σ) (opts : List Getopt)
    (argv : List String) : Closes (main L C opts argv) := by
  unfold main
  split
  · exact closes_usage _
  · exact closes_runAuthorization _ _ _ _

/-! ### Which calls a phase can make -/

theorem attributeLoop_calls {σ : Type} (C : Collab σ) (P : Call → Prop)
    (hget : ∀ i r, P (.tac_get_av i r)) (hstr : P .tac_strerror) (hclose : P .tac_close)
    (k i : Nat) (h : σ) : ∀ c ∈ (attributeLoop C k i h).calls, P c := by
  induction k generalizing i h with
  | zero =>
    intro c hc
    simp only [attributeLoop, cleanUp_calls, List.mem_singleton] at hc
    exact hc ▸ hclose
  | succ k ih =>
    intro c hc
    unfold attributeLoop at hc
    split at hc
    · simp only [called_calls, errx_calls, List.mem_cons, List.not_mem_nil, or_false] at hc
      rcases hc with rfl | rfl
      · exact hget _ _
      · exact hstr
    · simp only [called_calls, printed_calls, List.mem_cons] at hc
      rcases hc with rfl | hc
      · exact hget _ _
      · exact ih _ _ c hc

theorem checkResponse_calls {σ : Type} (L : TacLib) (C : Collab σ) (P : Call → Prop)
    (hget : ∀ i r, P (.tac_get_av i r)) (hstr : P .tac_strerror) (hclose : P .tac_close)
    (v : Bool) (h : σ) (ret : Int) : ∀ c ∈ (checkResponse L C v h ret).calls, P c := by
  have hpa : ∀ c ∈ (printAttributes L C v h ret).calls, P c := by
    intro c hc
    unfold printAttributes at hc
    split at hc
    · exact attributeLoop_calls C P hget hstr hclose _ _ _ c hc
    · simp only [cleanUp_calls, List.mem_singleton] at hc
      exact hc ▸ hclose
  intro c hc
  unfold checkResponse at hc
  split at hc
  · split at hc
    · exact hpa c hc
    · exact hpa c hc
  · split at hc
    · exact hpa c hc
    · exact hpa c hc
  · simp at hc
  · simp at hc
  · simp at hc

theorem sendRequest_calls {σ : Type} (L : TacLib) (C : Collab σ) (P : Call → Prop)
    (hsend : ∀ r, P (.tac_send_author r))
    (hget : ∀ i r, P (.tac_get_av i r)) (hstr : P .tac_strerror) (hclose : P .tac_close)
    (v : Bool) (h : σ) : ∀ c ∈ (sendRequest L C v h).calls, P c := by
  intro c hc
  unfold sendRequest at hc
  simp only [called_calls, List.mem_cons] at hc
  rcases hc with rfl | hc
  · exact hsend _
  · split at hc
    · simp only [called_calls, errx_calls, List.mem_singleton] at hc
      exact hc ▸ hstr
    · exact checkResponse_calls L C P hget hstr hclose _ _ _ c hc

theorem addAvPairs_calls {σ : Type} (L : TacLib) (C : Collab σ) (P : Call → Prop)
    (hav : ∀ f a r, P (.tac_set_av f a r)) (hsend : ∀ r, P (.tac_send_author r))
    (hget : ∀ i r, P (.tac_get_av i r)) (hstr : P .tac_strerror) (hclose : P .tac_close)
    (v : Bool) (argv : List String) (argc : Nat) (h : σ) :
    ∀ c ∈ (addAvPairs L C v argv argc h).calls, P c := by
  induction argc using Nat.strong_induction_on generalizing h with
  | _ argc ih =>
    match argc with
    | 0 => exact sendRequest_calls L C P hsend hget hstr hclose _ _
    | 1 => exact sendRequest_calls L C P hsend hget hstr hclose _ _
    | n + 2 =>
      intro c hc
      unfold addAvPairs at hc
      split at hc
      · simp at hc
      · simp only [called_calls, List.mem_cons] at hc
        rcases hc with rfl | hc
        · exact hav _ _ _
        · split at hc
          · simp only [called_calls, errx_calls, List.mem_singleton] at hc
            exact hc ▸ hstr
          · exact ih (n + 1) (by omega) _ c hc

theorem setUser_calls {σ : Type} (L : TacLib) (C : Collab σ) (P : Call → Prop)
    (huser : ∀ n r, P (.tac_set_user n r))
    (hav : ∀ f a r, P (.tac_set_av f a r)) (hsend : ∀ r, P (.tac_send_author r))
    (hget : ∀ i r, P (.tac_get_av i r)) (hstr : P .tac_strerror) (hclose : P .tac_close)
    (g : Globals) (argv : List String) (h : σ) :
    ∀ c ∈ (setUser L C g argv h).calls, P c := by
  intro c hc
  unfold setUser at hc
  simp only [called_calls, List.mem_cons] at hc
  rcases hc with rfl | hc
  · exact huser _ _
  · split at hc
    · simp only [called_calls, errx_calls, List.mem_singleton] at hc
      exact hc ▸ hstr
    · exact addAvPairs_calls L C P hav hsend hget hstr hclose _ _ _ _ c hc

/-! ### Reaching the response -/

theorem sendsThen_called (c : Call) (hc : c.isRequest = true) (ret : Int) (e2 e : Exit)
    (h : SendsThen ret e2 e) : SendsThen ret e2 (called c e) := by
  obtain ⟨pre, hpre, hcalls, hs, he⟩ := h
  refine ⟨c :: pre, ?_, by simp [hcalls], hs, he⟩
  intro d hd
  rcases List.mem_cons.1 hd with rfl | hd
  · exact hc
  · exact hpre d hd

theorem sendRequest_reach {σ : Type} (L : TacLib) (C : Collab σ) (v : Bool) (h : σ)
    (ret : Int) (hret : 0 ≤ ret)
    (hmem : Call.tac_send_author ret ∈ (sendRequest L C v h).calls) :
    ∃ h1, SendsThen ret (checkResponse L C v h1 ret) (sendRequest L C v h) := by
  have hno : ∀ (e : Exit), (∀ c ∈ e.calls, ∀ r, c ≠ Call.tac_send_author r) →
      Call.tac_send_author ret ∉ e.calls := fun e he hm => he _ hm ret rfl
  have hret2 : (C.tac_send_author h).2 = ret := by
    unfold sendRequest at hmem
    simp only [called_calls, List.mem_cons, Call.tac_send_author.injEq] at hmem
    rcases hmem with hmem | hmem
    · exact hmem.symm
    · exfalso
      split at hmem
      · simp at hmem
      · exact hno _ (checkResponse_calls L C (fun c => ∀ r, c ≠ Call.tac_send_author r)
          (by simp) (by simp) (by simp) _ _ _) hmem
  refine ⟨(C.tac_send_author h).1, [], by simp, ?_, ?_, ?_⟩ <;>
    · unfold sendRequest
      have hnl : ¬ ret < 0 := by omega
      simp [hret2, hnl]

theorem addAvPairs_reach {σ : Type} (L : TacLib) (C : Collab σ) (v : Bool)
    (argv : List String) (argc : Nat) (h : σ) (ret : Int) (hret : 0 ≤ ret)
    (hmem : Call.tac_send_author ret ∈ (addAvPairs L C v argv argc h).calls) :
    ∃ h1, SendsThen ret (checkResponse L C v h1 ret) (addAvPairs L C v argv argc h) := by
  induction argc using Nat.strong_induction_on generalizing h with
  | _ argc ih =>
    match argc with
    | 0 => exact sendRequest_reach L C v h ret hret hmem
    | 1 => exact sendRequest_reach L C v h ret hret hmem
    | n + 2 =>
      unfold addAvPairs at hmem ⊢
      split at hmem
      · simp at hmem
      · rename_i hchr
        simp only [hchr, if_false]
        simp only [called_calls, List.mem_cons] at hmem
        rcases hmem with hmem | hmem
        · simp at hmem
        · split at hmem
          · simp at hmem
          · rename_i hneg
            simp only [hneg, if_false]
            obtain ⟨h1, hst⟩ := ih (n + 1) (by omega) _ hmem
            exact ⟨h1, sendsThen_called _ (by rfl) _ _ _ hst⟩

theorem setUser_reach {σ : Type} (L : TacLib) (C : Collab σ) (g : Globals)
    (argv : List String) (h : σ) (ret : Int) (hret : 0 ≤ ret)
    (hmem : Call.tac_send_author ret ∈ (setUser L C g argv h).calls) :
    ∃ h1, SendsThen ret (checkResponse L C g.verbose h1 ret) (setUser L C g argv h) := by
  unfold setUser at hmem ⊢
  simp only [called_calls, List.mem_cons] at hmem
  rcases hmem with hmem | hmem
  · simp at hmem
  · split at hmem
    · simp at hmem
    · rename_i hneg
      simp only [hneg, if_false]
      obtain ⟨h1, hst⟩ := addAvPairs_reach L C _ _ _ _ ret hret hmem
      exact ⟨h1, sendsThen_called _ (by rfl) _ _ _ hst⟩

theorem createAuthor_reach {σ : Type} (L : TacLib) (C : Collab σ) (g : Globals)
    (argv : List String) (h : σ) (ret : Int) (hret : 0 ≤ ret)
    (hmem : Call.tac_send_author ret ∈ (createAuthor L C g argv h).calls) :
    ∃ h1, SendsThen ret (checkResponse L C g.verbose h1 ret) (createAuthor L C g argv h) := by
  unfold createAuthor at hmem ⊢
  simp only [called_calls, List.mem_cons] at hmem
  rcases hmem with hmem | hmem
  · simp at hmem
  · split at hmem
    · simp at hmem
    · rename_i hneg
      simp only [hneg, if_false]
      obtain ⟨h1, hst⟩ := setUser_reach L C _ _ _ ret hret hmem
      exact ⟨h1, sendsThen_called _ (by rfl) _ _ _ hst⟩

theorem runAuthorization_reach {σ : Type} (L : TacLib) (C : Collab σ) (g : Globals)
    (argv : List String) (ret : Int) (hret : 0 ≤ ret)
    (hmem : Call.tac_send_author ret ∈ (runAuthorization L C g argv).calls) :
    ∃ h1, SendsThen ret (checkResponse L C g.verbose h1 ret)
      (runAuthorization L C g argv) := by
  unfold runAuthorization at hmem ⊢
  split at hmem
  · simp at hmem
  · rename_i hlen
    simp only [hlen, if_false]
    split at hmem
    · simp at hmem
    · rename_i h0 hopen
      simp only [called_calls, List.mem_cons] at hmem
      rcases hmem with hmem | hmem | hmem
      · simp at hmem
      · simp at hmem
      · split at hmem
        · simp at hmem
        · rename_i hcfg
          simp only [hcfg, if_false]
          obtain ⟨h1, hst⟩ := createAuthor_reach L C _ _ _ ret hret hmem
          exact ⟨h1, sendsThen_called _ (by rfl) _ _ _ (sendsThen_called _ (by rfl) _ _ _ hst)⟩

theorem main_reach {σ : Type} (L : TacLib) (C : Collab σ) (opts : List Getopt)
    (argv : List String) (ret : Int) (hret : 0 ≤ ret)
    (hmem : Call.tac_send_author ret ∈ (main L C opts argv).calls) :
    ∃ g h1, optionLoop L (Globals.initial L) opts = some g ∧
      SendsThen ret (checkResponse L C g.verbose h1 ret) (main L C opts argv) := by
  unfold main at hmem ⊢
  split at hmem
  · simp at hmem
  · rename_i g hg
    obtain ⟨h1, hst⟩ := runAuthorization_reach L C g argv ret hret hmem
    exact ⟨g, h1, hg, by simpa [hg] using hst⟩

/-! ### The attribute loop -/

theorem getAvCalls_cons (i : Nat) (av : String) (avs : List String) :
    getAvCalls i (av :: avs) = Call.tac_get_av i (some av) :: getAvCalls (i + 1) avs := rfl

theorem attributeLines_cons (i : Nat) (av : String) (avs : List String) :
    attributeLines i (av :: avs) =
      Out.fprintf (fmt_2d i ++ " " ++ av ++ "\n") :: attributeLines (i + 1) avs := rfl

theorem attributeLoop_all {σ : Type} (C : Collab σ) (k i : Nat) (h : σ)
    (hget : ∀ j, Call.tac_get_av j none ∉ (attributeLoop C k i h).calls) :
    ∃ avs : List String, avs.length = k ∧
      (attributeLoop C k i h).calls = getAvCalls i avs ++ [.tac_close] ∧
      (attributeLoop C k i h).stderr = attributeLines i avs ∧
      (attributeLoop C k i h).status = 0 := by
  induction k generalizing i h with
  | zero => exact ⟨[], rfl, rfl, rfl, rfl⟩
  | succ k ih =>
    cases hav : (C.tac_get_av h i).2 with
    | none =>
      exfalso
      apply hget i
      simp [attributeLoop, hav]
    | some av =>
      have hstep : attributeLoop C (k + 1) i h =
          called (.tac_get_av i (some av))
            (printed (.fprintf (fmt_2d i ++ " " ++ av ++ "\n"))
              (attributeLoop C k (i + 1) (C.tac_get_av h i).1)) := by
        simp [attributeLoop, hav]
      have hget2 : ∀ j, Call.tac_get_av j none ∉
          (attributeLoop C k (i + 1) (C.tac_get_av h i).1).calls := by
        intro j hj
        apply hget j
        rw [hstep]
        simp [hj]
      obtain ⟨avs, hlen, hc, he, hs⟩ := ih (i + 1) _ hget2
      refine ⟨av :: avs, by simp [hlen], ?_, ?_, ?_⟩
      · rw [hstep, getAvCalls_cons]; simp [hc]
      · rw [hstep, attributeLines_cons]; simp [he]
      · rw [hstep]; simpa using hs

/-! ### The check of the response -/

theorem classify_iff (L : TacLib)
    (hd : [L.TAC_AUTHOR_STATUS_PASS_ADD, L.TAC_AUTHOR_STATUS_PASS_REPL,
      L.TAC_AUTHOR_STATUS_FAIL, L.TAC_AUTHOR_STATUS_ERROR].Nodup) (s : Int) :
    (classify L s = .passAdd ↔ s = L.TAC_AUTHOR_STATUS_PASS_ADD) ∧
    (classify L s = .passReplace ↔ s = L.TAC_AUTHOR_STATUS_PASS_REPL) ∧
    (classify L s = .fail ↔ s = L.TAC_AUTHOR_STATUS_FAIL) ∧
    (classify L s = .error ↔ s = L.TAC_AUTHOR_STATUS_ERROR) ∧
    (classify L s = .unrecognized ↔
      s ∉ [L.TAC_AUTHOR_STATUS_PASS_ADD, L.TAC_AUTHOR_STATUS_PASS_REPL,
        L.TAC_AUTHOR_STATUS_FAIL, L.TAC_AUTHOR_STATUS_ERROR]) := by
  simp only [List.nodup_cons, List.mem_cons, List.mem_singleton, List.not_mem_nil,
    or_false, not_or, List.nodup_nil, and_true, not_false_eq_true] at hd
  obtain ⟨⟨h12, h13, h14⟩, ⟨h23, h24⟩, h34⟩ := hd
  unfold classify
  by_cases h1 : s = L.TAC_AUTHOR_STATUS_PASS_ADD
  · subst h1; simp [h12, h13, h14]
  by_cases h2 : s = L.TAC_AUTHOR_STATUS_PASS_REPL
  · subst h2; simp [h1, h23, h24]
  by_cases h3 : s = L.TAC_AUTHOR_STATUS_FAIL
  · subst h3; simp [h1, h2, h34]
  by_cases h4 : s = L.TAC_AUTHOR_STATUS_ERROR
  · subst h4; simp [h1, h2, h3]
  · simp [h1, h2, h3, h4]

theorem checkResponse_status_zero {σ : Type} (L : TacLib) (C : Collab σ) (v : Bool) (h : σ)
    (ret : Int) (hz : (checkResponse L C v h ret).status = 0) :
    L.TAC_AUTHOR_STATUS ret = L.TAC_AUTHOR_STATUS_PASS_ADD ∨
    L.TAC_AUTHOR_STATUS ret = L.TAC_AUTHOR_STATUS_PASS_REPL := by
  by_cases h1 : L.TAC_AUTHOR_STATUS ret = L.TAC_AUTHOR_STATUS_PASS_ADD
  · exact Or.inl h1
  by_cases h2 : L.TAC_AUTHOR_STATUS ret = L.TAC_AUTHOR_STATUS_PASS_REPL
  · exact Or.inr h2
  exfalso
  unfold checkResponse classify at hz
  simp only [h1, h2, if_false] at hz
  split_ifs at hz <;> simp at hz

theorem checkResponse_not_pass {σ : Type} (L : TacLib) (C : Collab σ) (v : Bool) (h : σ)
    (ret : Int) (h1 : L.TAC_AUTHOR_STATUS ret ≠ L.TAC_AUTHOR_STATUS_PASS_ADD)
    (h2 : L.TAC_AUTHOR_STATUS ret ≠ L.TAC_AUTHOR_STATUS_PASS_REPL) :
    checkResponse L C v h ret =
      errx (if L.TAC_AUTHOR_STATUS ret = L.TAC_AUTHOR_STATUS_FAIL then "authorization failed"
        else if L.TAC_AUTHOR_STATUS ret = L.TAC_AUTHOR_STATUS_ERROR then "server error"
        else "unrecognized server response: " ++ fmt_hash_x (L.TAC_AUTHOR_STATUS ret)) := by
  unfold checkResponse classify
  simp only [h1, h2, if_false]
  split_ifs <;> rfl

theorem sendsThen_get_av (ret : Int) (e2 e : Exit) (hst : SendsThen ret e2 e) (i : Int)
    (r : Option String) : Call.tac_get_av i r ∈ e.calls ↔ Call.tac_get_av i r ∈ e2.calls := by
  obtain ⟨pre, hpre, hcalls, _, _⟩ := hst
  rw [hcalls]
  simp only [List.mem_append, List.mem_cons]
  constructor
  · rintro (hm | hm | hm)
    · have := hpre _ hm
      simp [Call.isRequest] at this
    · simp at hm
    · exact hm
  · intro hm
    exact Or.inr (Or.inr hm)

/-! ### The av pairs -/

theorem strchr_eq_none_iff (s : List Char) (c : Char) : strchr s c = none ↔ c ∉ s := by
  induction s with
  | nil => simp [strchr]
  | cons x xs ih =>
    unfold strchr
    by_cases hx : x = c
    · simp [hx]
    · have hx2 : ¬ c = x := fun e => hx e.symm
      simp [hx, hx2, ih]

theorem addAvPairs_malformed_first {σ : Type} (L : TacLib) (C : Collab σ) (v : Bool)
    (argv : List String) (argc : Nat) (h : σ) (hargc : 2 ≤ argc)
    (hp : '=' ∉ (argv.headD "").data) : addAvPairs L C v argv argc h = usage L := by
  obtain ⟨n, rfl⟩ : ∃ n, argc = n + 2 := ⟨argc - 2, by omega⟩
  unfold addAvPairs
  exact if_pos ((strchr_eq_none_iff _ _).2 hp)

theorem main_status_zero_opened {σ : Type} (L : TacLib) (C : Collab σ) (opts : List Getopt)
    (argv : List String) (hz : (main L C opts argv).status = 0) :
    ∃ rest, (main L C opts argv).calls = Call.tac_open true :: rest := by
  unfold main at hz ⊢
  split at hz
  · simp at hz
  · unfold runAuthorization at hz ⊢
    split at hz
    · simp at hz
    · rename_i hlen
      simp only [hlen, if_false]
      split at hz
      · simp at hz
      · exact ⟨_, rfl⟩

/-! ## The claims -/

/-- C3. The av pairs `a=1 b=2` followed by the name, a library that succeeds
and a server that passes: `tac_set_av` is called with `a=1` twice and never
with `b=2`, because the loop of lines 147-153 decrements `argc` and never
advances `argv`. -/
theorem av_pairs_first_pair_attached_repeatedly :
    (main freebsd (scripted 1 []) [] ["a=1", "b=2", "name"]).calls =
      [.tac_open true, .tac_config 0, .tac_create_author 0 0 0 0, .tac_set_user "name" 0,
       .tac_set_av 0 "a=1" 0, .tac_set_av 0 "a=1" 0, .tac_send_author 1, .tac_close] ∧
    (main freebsd (scripted 1 []) [] ["a=1", "b=2", "name"]).status = 0 := by
  decide

/-- C4. The positional arguments `a=1 bogus name`, a library that succeeds and a
server that passes: the second argument has no `=`, but the loop of lines
147-153 tests `*argv`, the first argument, in every iteration, so that no
usage message is written and the program exits with status 0. -/
theorem malformed_later_pair_is_accepted :
    '=' ∉ "bogus".data ∧
    (main freebsd (scripted 1 []) [] ["a=1", "bogus", "name"]).status = 0 ∧
    (main freebsd (scripted 1 []) [] ["a=1", "bogus", "name"]).stderr = [] ∧
    (main freebsd (scripted 1 []) [] ["a=1", "bogus", "name"]).calls =
      [.tac_open true, .tac_config 0, .tac_create_author 0 0 0 0, .tac_set_user "name" 0,
       .tac_set_av 0 "a=1" 0, .tac_set_av 0 "a=1" 0, .tac_send_author 1, .tac_close] := by
  decide

/-- Counterexample to C5: for the positional arguments `bogus name` the usage
error is raised, but only after `tac_open`, `tac_config`, `tac_create_author`
and `tac_set_user` were called. -/
theorem malformed_pair_zero_calls_counterexample :
    '=' ∉ "bogus".data ∧
    (main freebsd (scripted 1 []) [] ["bogus", "name"]).calls =
      [.tac_open true, .tac_config 0, .tac_create_author 0 0 0 0, .tac_set_user "name" 0] ∧
    (main freebsd (scripted 1 []) [] ["bogus", "name"]).calls ≠ [] ∧
    (main freebsd (scripted 1 []) [] ["bogus", "name"]).status = 1 ∧
    (main freebsd (scripted 1 []) [] ["bogus", "name"]).stderr = usageText freebsd := by
  decide

theorem malformed_first_trace {σ : Type} (L : TacLib) (C : Collab σ)
    (opts : List Getopt) (p : String) (rest : List String) (hrest : rest ≠ [])
    (hp : '=' ∉ p.data) :
    (main L C opts (p :: rest)).status = 1 ∧
    (∀ c ∈ (main L C opts (p :: rest)).calls, c.isSetup = true) ∧
    (∀ name r, 0 ≤ r → Call.tac_set_user name r ∈ (main L C opts (p :: rest)).calls →
      (∃ r2, 0 ≤ r2 ∧ (main L C opts (p :: rest)).calls =
        [.tac_open true, .tac_config 0,
         .tac_create_author (profile L opts).1 (profile L opts).2.1 (profile L opts).2.2 r2,
         .tac_set_user name r]) ∧
      (main L C opts (p :: rest)).stderr = usageText L) := by
  have hlen : 2 ≤ (p :: rest).length := by
    cases rest with
    | nil => exact absurd rfl hrest
    | cons x xs => simp
  have hlen1 : ¬ (p :: rest).length < 1 := by omega
  have hav : ∀ (v : Bool) (h : σ),
      addAvPairs L C v (p :: rest) (p :: rest).length h = usage L := fun v h =>
    addAvPairs_malformed_first L C v (p :: rest) _ h hlen (by simpa using hp)
  unfold main
  cases hopt : optionLoop L (Globals.initial L) opts with
  | none => simp
  | some g =>
    have hprof := optionLoop_some L opts _ g hopt
    simp only [Globals.initial] at hprof
    obtain ⟨hm, ht, hs, _⟩ := hprof
    simp only
    unfold runAuthorization
    rw [if_neg hlen1]
    cases hopen : C.tac_open with
    | none => simp [Call.isSetup]
    | some h0 =>
      simp only
      by_cases hcfg : (C.tac_config h0).2 = 0
      swap
      · simp [hcfg, Call.isSetup]
      unfold createAuthor
      by_cases hcr : (C.tac_create_author (C.tac_config h0).1 g.method g.type g.service).2 < 0
      · simp [hcfg, hcr, Call.isSetup]
      unfold setUser
      rw [hav]
      by_cases hus : (C.tac_set_user
          (C.tac_create_author (C.tac_config h0).1 g.method g.type g.service).1
          ((p :: rest).getD ((p :: rest).length - 1) "")).2 < 0
      · simp only [hcfg, hcr, hus, ne_eq, not_true_eq_false, if_false, if_true, called_status,
          errx_status, called_calls, errx_calls, true_and]
        refine ⟨?_, ?_⟩
        · intro c hc
          simp only [List.mem_cons, List.not_mem_nil, or_false] at hc
          rcases hc with rfl | rfl | rfl | rfl | rfl <;> rfl
        · intro name r hr hmem
          simp only [List.mem_cons, Call.tac_set_user.injEq, List.not_mem_nil, or_false,
            reduceCtorEq, false_or] at hmem
          omega
      · simp only [hcfg, hcr, hus, ne_eq, not_true_eq_false, if_false, called_status,
          usage_status, called_calls, usage_calls, called_stderr, usage_stderr, true_and]
        refine ⟨?_, ?_⟩
        · intro c hc
          simp only [List.mem_cons, List.not_mem_nil, or_false] at hc
          rcases hc with rfl | rfl | rfl | rfl <;> rfl
        · intro name r hr hmem
          simp only [List.mem_cons, Call.tac_set_user.injEq, List.not_mem_nil, or_false,
            reduceCtorEq, false_or] at hmem
          obtain ⟨hn, hr2⟩ := hmem
          refine ⟨⟨_, not_lt.1 hcr, ?_⟩, trivial⟩
          simp [profile, hm, ht, hs, hn, hr2]

theorem malformed_first_run {σ : Type} (L : TacLib) (C : Collab σ)
    (opts : List Getopt) (p : String) (rest : List String) (hrest : rest ≠ [])
    (hp : '=' ∉ p.data) (g : Globals) (h0 : σ)
    (hopt : optionLoop L (Globals.initial L) opts = some g)
    (hopen : C.tac_open = some h0) (hcfg : (C.tac_config h0).2 = 0)
    (hcr : 0 ≤ (C.tac_create_author (C.tac_config h0).1 g.method g.type g.service).2)
    (hus : 0 ≤ (C.tac_set_user
      (C.tac_create_author (C.tac_config h0).1 g.method g.type g.service).1
      ((p :: rest).getD ((p :: rest).length - 1) "")).2) :
    main L C opts (p :: rest) =
      called (.tac_open true) (called (.tac_config 0)
        (called (.tac_create_author g.method g.type g.service
            (C.tac_create_author (C.tac_config h0).1 g.method g.type g.service).2)
          (called (.tac_set_user ((p :: rest).getD ((p :: rest).length - 1) "")
              (C.tac_set_user
                (C.tac_create_author (C.tac_config h0).1 g.method g.type g.service).1
                ((p :: rest).getD ((p :: rest).length - 1) "")).2)
            (usage L)))) := by
  have hlen : 2 ≤ (p :: rest).length := by
    cases rest with
    | nil => exact absurd rfl hrest
    | cons x xs => simp
  have hlen1 : ¬ (p :: rest).length < 1 := by omega
  have hav : ∀ (v : Bool) (h : σ),
      addAvPairs L C v (p :: rest) (p :: rest).length h = usage L := fun v h =>
    addAvPairs_malformed_first L C v (p :: rest) _ h hlen (by simpa using hp)
  unfold main
  simp only [hopt]
  unfold runAuthorization
  rw [if_neg hlen1]
  simp only [hopen]
  rw [if_neg (by simp [hcfg]), hcfg]
  unfold createAuthor
  rw [if_neg (not_lt.2 hcr)]
  unfold setUser
  rw [if_neg (not_lt.2 hus), hav]

theorem main_first_call {σ : Type} (L : TacLib) (C : Collab σ) (opts : List Getopt)
    (argv : List String) (g : Globals) (hargv : argv ≠ [])
    (hopt : optionLoop L (Globals.initial L) opts = some g) :
    (main L C opts argv).calls.head? = some (Call.tac_open C.tac_open.isSome) := by
  have hlen1 : ¬ argv.length < 1 := by
    cases argv with
    | nil => exact absurd rfl hargv
    | cons x xs => simp
  unfold main
  simp only [hopt]
  unfold runAuthorization
  rw [if_neg hlen1]
  cases hopen : C.tac_open with
  | none => rfl
  | some h0 => rfl

/-- C5, amended. Let the first of at least two positional arguments have no
`=`. Whatever the options and the library are, the program exits with status 1
and the only library calls it makes are `tac_open`, `tac_config`,
`tac_create_author`, `tac_set_user` and `tac_strerror`: `tac_set_av`,
`tac_send_author`, `tac_get_av` and `tac_close` are never called. But the check
comes after the set-up of the session and the request: when the option loop
accepts the options, the run starts with the call of `tac_open`, and when
`tac_open`, `tac_config`, `tac_create_author` (on the resolved profile) and
`tac_set_user` (on the last positional argument) succeed, the run is these four
calls, in this order, followed by `usage()`: exactly these four calls are made
and the usage message is what is written to standard error. -/
theorem malformed_first_pair_usage_after_setup {σ : Type} (L : TacLib) (C : Collab σ)
    (opts : List Getopt) (p : String) (rest : List String) (hrest : rest ≠ [])
    (hp : '=' ∉ p.data) :
    (main L C opts (p :: rest)).status = 1 ∧
    (∀ c ∈ (main L C opts (p :: rest)).calls, c.isSetup = true) ∧
    (∀ g, optionLoop L (Globals.initial L) opts = some g →
      (g.method, g.type, g.service) = profile L opts ∧
      (main L C opts (p :: rest)).calls.head? = some (Call.tac_open C.tac_open.isSome) ∧
      ∀ h0, C.tac_open = some h0 → (C.tac_config h0).2 = 0 →
        0 ≤ (C.tac_create_author (C.tac_config h0).1 g.method g.type g.service).2 →
        0 ≤ (C.tac_set_user
          (C.tac_create_author (C.tac_config h0).1 g.method g.type g.service).1
          ((p :: rest).getD ((p :: rest).length - 1) "")).2 →
        main L C opts (p :: rest) =
          called (.tac_open true) (called (.tac_config 0)
            (called (.tac_create_author g.method g.type g.service
                (C.tac_create_author (C.tac_config h0).1 g.method g.type g.service).2)
              (called (.tac_set_user ((p :: rest).getD ((p :: rest).length - 1) "")
                  (C.tac_set_user
                    (C.tac_create_author (C.tac_config h0).1 g.method g.type g.service).1
                    ((p :: rest).getD ((p :: rest).length - 1) "")).2)
                (usage L)))) ∧
        (main L C opts (p :: rest)).calls =
          [.tac_open true, .tac_config 0,
           .tac_create_author g.method g.type g.service
             (C.tac_create_author (C.tac_config h0).1 g.method g.type g.service).2,
           .tac_set_user ((p :: rest).getD ((p :: rest).length - 1) "")
             (C.tac_set_user
               (C.tac_create_author (C.tac_config h0).1 g.method g.type g.service).1
               ((p :: rest).getD ((p :: rest).length - 1) "")).2] ∧
        (main L C opts (p :: rest)).stderr = usageText L) ∧
    (∀ name r, 0 ≤ r → Call.tac_set_user name r ∈ (main L C opts (p :: rest)).calls →
      (∃ r2, 0 ≤ r2 ∧ (main L C opts (p :: rest)).calls =
        [.tac_open true, .tac_config 0,
         .tac_create_author (profile L opts).1 (profile L opts).2.1 (profile L opts).2.2 r2,
         .tac_set_user name r]) ∧
      (main L C opts (p :: rest)).stderr = usageText L) := by
  have htrace := malformed_first_trace L C opts p rest hrest hp
  refine ⟨htrace.1, htrace.2.1, ?_, htrace.2.2⟩
  intro g hopt
  refine ⟨?_, main_first_call L C opts (p :: rest) g (List.cons_ne_nil _ _) hopt, ?_⟩
  · obtain ⟨hm, ht, hs, _⟩ := optionLoop_some L opts _ g hopt
    simp only [Globals.initial] at hm ht hs
    simp [profile, hm, ht, hs]
  · intro h0 hopen hcfg hcr hus
    have hrun := malformed_first_run L C opts p rest hrest hp g h0 hopt hopen hcfg hcr hus
    refine ⟨hrun, ?_, ?_⟩
    · rw [hrun]; rfl
    · rw [hrun]; rfl

/-- Witness for C5, amended: the positional arguments `bogus name`, no options
and a library all of whose calls succeed. The four set-up calls are made, then
the usage message is written and the exit status is 1. -/
theorem malformed_first_pair_usage_after_setup_witness :
    ["name"] ≠ [] ∧ '=' ∉ "bogus".data ∧
    (main freebsd (scripted 1 []) [] ("bogus" :: ["name"])).status = 1 ∧
    (main freebsd (scripted 1 []) [] ("bogus" :: ["name"])).calls =
      [.tac_open true, .tac_config 0, .tac_create_author 0 0 0 0,
       .tac_set_user "name" 0] ∧
    (main freebsd (scripted 1 []) [] ("bogus" :: ["name"])).stderr = usageText freebsd :=
  ⟨by decide, by decide,
   (malformed_first_pair_usage_after_setup freebsd (scripted 1 []) [] "bogus" ["name"]
      (by decide) (by decide)).1,
   ((malformed_first_pair_usage_after_setup freebsd (scripted 1 []) [] "bogus" ["name"]
      (by decide) (by decide)).2.2.1 (Globals.initial freebsd) rfl).2.2 () rfl rfl
      (by decide) (by decide) |>.2.1,
   ((malformed_first_pair_usage_after_setup freebsd (scripted 1 []) [] "bogus" ["name"]
      (by decide) (by decide)).2.2.1 (Globals.initial freebsd) rfl).2.2 () rfl rfl
      (by decide) (by decide) |>.2.2⟩

/-- C6. Let the `case` labels of the `switch` be pairwise distinct and let
`tac_send_author` have returned `ret ≥ 0` in a run of `main`. The status
`TAC_AUTHOR_STATUS(ret)` falls into exactly the arm that its value names:
pass-add, pass-replace, fail, error, or unrecognized for every other value. The
run exits with status 0 only when the status is `PASS_ADD` or `PASS_REPL`. For
every other status (`FAIL`, `ERROR`, unrecognized) the run exits with status 1,
never calls `tac_get_av`, and all it writes to standard error is the `errx`
message of its arm, whatever the options (verbose or not) are. -/
theorem response_classified_and_only_pass_succeeds {σ : Type} (L : TacLib) (C : Collab σ)
    (opts : List Getopt) (argv : List String) (ret : Int)
    (hd : [L.TAC_AUTHOR_STATUS_PASS_ADD, L.TAC_AUTHOR_STATUS_PASS_REPL,
      L.TAC_AUTHOR_STATUS_FAIL, L.TAC_AUTHOR_STATUS_ERROR].Nodup)
    (hret : 0 ≤ ret)
    (hsend : Call.tac_send_author ret ∈ (main L C opts argv).calls) :
    ((classify L (L.TAC_AUTHOR_STATUS ret) = .passAdd ↔
        L.TAC_AUTHOR_STATUS ret = L.TAC_AUTHOR_STATUS_PASS_ADD) ∧
      (classify L (L.TAC_AUTHOR_STATUS ret) = .passReplace ↔
        L.TAC_AUTHOR_STATUS ret = L.TAC_AUTHOR_STATUS_PASS_REPL) ∧
      (classify L (L.TAC_AUTHOR_STATUS ret) = .fail ↔
        L.TAC_AUTHOR_STATUS ret = L.TAC_AUTHOR_STATUS_FAIL) ∧
      (classify L (L.TAC_AUTHOR_STATUS ret) = .error ↔
        L.TAC_AUTHOR_STATUS ret = L.TAC_AUTHOR_STATUS_ERROR) ∧
      (classify L (L.TAC_AUTHOR_STATUS ret) = .unrecognized ↔
        L.TAC_AUTHOR_STATUS ret ∉
          [L.TAC_AUTHOR_STATUS_PASS_ADD, L.TAC_AUTHOR_STATUS_PASS_REPL,
            L.TAC_AUTHOR_STATUS_FAIL, L.TAC_AUTHOR_STATUS_ERROR])) ∧
    ((main L C opts argv).status = 0 →
      classify L (L.TAC_AUTHOR_STATUS ret) = .passAdd ∨
      classify L (L.TAC_AUTHOR_STATUS ret) = .passReplace) ∧
    (classify L (L.TAC_AUTHOR_STATUS ret) ≠ .passAdd →
      classify L (L.TAC_AUTHOR_STATUS ret) ≠ .passReplace →
      (main L C opts argv).status = 1 ∧
      (∀ i r, Call.tac_get_av i r ∉ (main L C opts argv).calls) ∧
      (main L C opts argv).stderr =
        [.errx (match classify L (L.TAC_AUTHOR_STATUS ret) with
          | .fail => "authorization failed"
          | .error => "server error"
          | _ => "unrecognized server response: " ++ fmt_hash_x (L.TAC_AUTHOR_STATUS ret))]) := by
  have hcl := classify_iff L hd (L.TAC_AUTHOR_STATUS ret)
  obtain ⟨g, h1, _, hst⟩ := main_reach L C opts argv ret hret hsend
  have hget := sendsThen_get_av ret _ _ hst
  obtain ⟨pre, _, _, hstatus, hstderr⟩ := hst
  refine ⟨hcl, ?_, ?_⟩
  · intro hz
    rw [hstatus] at hz
    rcases checkResponse_status_zero L C _ _ _ hz with h | h
    · exact Or.inl (hcl.1.2 h)
    · exact Or.inr (hcl.2.1.2 h)
  · intro hn1 hn2
    have e1 : L.TAC_AUTHOR_STATUS ret ≠ L.TAC_AUTHOR_STATUS_PASS_ADD := fun e => hn1 (hcl.1.2 e)
    have e2 : L.TAC_AUTHOR_STATUS ret ≠ L.TAC_AUTHOR_STATUS_PASS_REPL :=
      fun e => hn2 (hcl.2.1.2 e)
    have hcr := checkResponse_not_pass L C g.verbose h1 ret e1 e2
    refine ⟨by rw [hstatus, hcr]; rfl, ?_, ?_⟩
    · intro i r hm
      have := (hget i r).1 hm
      rw [hcr] at this
      simp at this
    · rw [hstderr, hcr]
      simp only [errx_stderr, classify, e1, e2, if_false]
      split_ifs <;> rfl

/-- Witness for C6: verbose mode, a server that answers `FAIL` (status `0x10`)
with two attributes. -/
theorem response_classified_and_only_pass_succeeds_witness :
    [freebsd.TAC_AUTHOR_STATUS_PASS_ADD, freebsd.TAC_AUTHOR_STATUS_PASS_REPL,
      freebsd.TAC_AUTHOR_STATUS_FAIL, freebsd.TAC_AUTHOR_STATUS_ERROR].Nodup ∧
    (0 : Int) ≤ 0x0210 ∧
    Call.tac_send_author 0x0210 ∈
      (main freebsd (scripted 0x0210 ["priv-lvl=15", "service=shell"]) [Getopt.mk 'v' ""]
        ["name"]).calls ∧
    (main freebsd (scripted 0x0210 ["priv-lvl=15", "service=shell"]) [Getopt.mk 'v' ""]
        ["name"]).status = 1 ∧
    (∀ i r, Call.tac_get_av i r ∉
      (main freebsd (scripted 0x0210 ["priv-lvl=15", "service=shell"]) [Getopt.mk 'v' ""]
        ["name"]).calls) :=
  ⟨by decide, by decide, by decide,
   ((response_classified_and_only_pass_succeeds freebsd
      (scripted 0x0210 ["priv-lvl=15", "service=shell"]) [Getopt.mk 'v' ""] ["name"] 0x0210
      (by decide) (by decide) (by decide)).2.2 (by decide) (by decide)).1,
   ((response_classified_and_only_pass_succeeds freebsd
      (scripted 0x0210 ["priv-lvl=15", "service=shell"]) [Getopt.mk 'v' ""] ["name"] 0x0210
      (by decide) (by decide) (by decide)).2.2 (by decide) (by decide)).2.1⟩

/-- Counterexample to C8: verbose mode, `PASS_ADD` with attribute count 2 and
the attributes `priv-lvl=15` and `service=shell`. The program exits with
status 0, but `%2d` pads the index to two characters: the lines written are
` 0 priv-lvl=15` and ` 1 service=shell`, with a blank in front, and not
`0 priv-lvl=15` and `1 service=shell`. -/
theorem attribute_line_format_counterexample :
    (main freebsd (scripted 0x0201 ["priv-lvl=15", "service=shell"]) [Getopt.mk 'v' ""]
      ["name"]).stderr =
      [.fprintf "authorization passed (add)\n", .fprintf " 0 priv-lvl=15\n",
       .fprintf " 1 service=shell\n"] ∧
    Out.fprintf "0 priv-lvl=15\n" ∉
      (main freebsd (scripted 0x0201 ["priv-lvl=15", "service=shell"]) [Getopt.mk 'v' ""]
        ["name"]).stderr ∧
    Out.fprintf "1 service=shell\n" ∉
      (main freebsd (scripted 0x0201 ["priv-lvl=15", "service=shell"]) [Getopt.mk 'v' ""]
        ["name"]).stderr ∧
    (main freebsd (scripted 0x0201 ["priv-lvl=15", "service=shell"]) [Getopt.mk 'v' ""]
      ["name"]).status = 0 := by
  decide

/-- C8, amended. In verbose mode, when `tac_send_author` returned `ret ≥ 0` with
status `PASS_ADD` or `PASS_REPL` and no call of `tac_get_av` returned `NULL`:
after the calls that build the request and `tac_send_author`, the program calls
`tac_get_av` for exactly the indices `0, 1, ..., n-1` in increasing order, `n`
being `TAC_AUTHEN_AV_COUNT(ret)`, then `tac_close`; it writes the line
`authorization passed (add)` (or `(replace)`) and then one line per attribute
in index order, the line for index `i` being `i` in decimal padded on the left
to a width of two (a blank in front of a one-digit index), one space, the
returned string and a newline; and it exits with status 0. -/
theorem verbose_pass_prints_attributes {σ : Type} (L : TacLib) (C : Collab σ)
    (opts : List Getopt) (argv : List String) (ret : Int)
    (hv : ∃ o ∈ opts, o.opt = 'v') (hret : 0 ≤ ret)
    (hsend : Call.tac_send_author ret ∈ (main L C opts argv).calls)
    (hpass : L.TAC_AUTHOR_STATUS ret = L.TAC_AUTHOR_STATUS_PASS_ADD ∨
      L.TAC_AUTHOR_STATUS ret = L.TAC_AUTHOR_STATUS_PASS_REPL)
    (hget : ∀ i, Call.tac_get_av i none ∉ (main L C opts argv).calls) :
    (∃ (pre : List Call) (avs : List String),
      avs.length = (L.TAC_AUTHEN_AV_COUNT ret).toNat ∧
      (∀ c ∈ pre, c.isRequest = true) ∧
      (main L C opts argv).calls =
        pre ++ Call.tac_send_author ret :: (getAvCalls 0 avs ++ [.tac_close]) ∧
      (main L C opts argv).stderr =
        .fprintf (if L.TAC_AUTHOR_STATUS ret = L.TAC_AUTHOR_STATUS_PASS_ADD
          then "authorization passed (add)\n" else "authorization passed (replace)\n") ::
          attributeLines 0 avs ∧
      (main L C opts argv).status = 0) ∧
    (∀ i : Nat, i < 10 → fmt_2d i = " " ++ toString i) := by
  constructor
  · obtain ⟨g, h1, hg, hst⟩ := main_reach L C opts argv ret hret hsend
    have hverb : g.verbose = true := by
      have := (optionLoop_some L opts _ g hg).2.2.2
      rw [this]
      obtain ⟨o, ho, hov⟩ := hv
      simp only [Globals.initial, Bool.false_or, List.any_eq_true, decide_eq_true_eq]
      exact ⟨o, ho, hov⟩
    have hgetav := sendsThen_get_av ret _ _ hst
    obtain ⟨pre, hpre, hcalls, hstatus, hstderr⟩ := hst
    have hcr : checkResponse L C g.verbose h1 ret =
        printed (.fprintf (if L.TAC_AUTHOR_STATUS ret = L.TAC_AUTHOR_STATUS_PASS_ADD
          then "authorization passed (add)\n" else "authorization passed (replace)\n"))
          (attributeLoop C (L.TAC_AUTHEN_AV_COUNT ret).toNat 0 h1) := by
      unfold checkResponse classify printAttributes
      by_cases e1 : L.TAC_AUTHOR_STATUS ret = L.TAC_AUTHOR_STATUS_PASS_ADD
      · simp [e1, hverb]
      · have e2 : L.TAC_AUTHOR_STATUS ret = L.TAC_AUTHOR_STATUS_PASS_REPL :=
          hpass.resolve_left e1
        rw [if_neg e1, if_pos e2]
        simp [e1, hverb]
    have hget2 : ∀ j, Call.tac_get_av j none ∉
        (attributeLoop C (L.TAC_AUTHEN_AV_COUNT ret).toNat 0 h1).calls := by
      intro j hj
      apply hget j
      rw [hgetav, hcr]
      exact hj
    obtain ⟨avs, hlen, hc, he, hs⟩ := attributeLoop_all C _ 0 h1 hget2
    refine ⟨pre, avs, hlen, hpre, ?_, ?_, ?_⟩
    · rw [hcalls, hcr, printed_calls, hc]
    · rw [hstderr, hcr, printed_stderr, he]
    · rw [hstatus, hcr, printed_status, hs]
  · intro i hi
    interval_cases i <;> decide

theorem two_attributes_no_null : ∀ i, Call.tac_get_av i none ∉
    (main freebsd (scripted 0x0201 ["priv-lvl=15", "service=shell"]) [Getopt.mk 'v' ""]
      ["name"]).calls := by
  have hcalls : (main freebsd (scripted 0x0201 ["priv-lvl=15", "service=shell"])
      [Getopt.mk 'v' ""] ["name"]).calls =
      [.tac_open true, .tac_config 0, .tac_create_author 0 0 0 0, .tac_set_user "name" 0,
       .tac_send_author 0x0201, .tac_get_av 0 (some "priv-lvl=15"),
       .tac_get_av 1 (some "service=shell"), .tac_close] := by decide
  intro i
  rw [hcalls]
  simp

/-- Witness for C8, amended: verbose mode, `PASS_ADD` with attribute count 2 and
the attributes `priv-lvl=15` and `service=shell`. -/
theorem verbose_pass_prints_attributes_witness :
    (∃ o ∈ [Getopt.mk 'v' ""], o.opt = 'v') ∧ (0 : Int) ≤ 0x0201 ∧
    Call.tac_send_author 0x0201 ∈
      (main freebsd (scripted 0x0201 ["priv-lvl=15", "service=shell"]) [Getopt.mk 'v' ""]
        ["name"]).calls ∧
    (freebsd.TAC_AUTHOR_STATUS 0x0201 = freebsd.TAC_AUTHOR_STATUS_PASS_ADD ∨
      freebsd.TAC_AUTHOR_STATUS 0x0201 = freebsd.TAC_AUTHOR_STATUS_PASS_REPL) ∧
    (∀ i, Call.tac_get_av i none ∉
      (main freebsd (scripted 0x0201 ["priv-lvl=15", "service=shell"]) [Getopt.mk 'v' ""]
        ["name"]).calls) ∧
    fmt_2d (3 : Nat) = " " ++ toString 3 :=
  ⟨by decide, by decide, by decide, by decide, two_attributes_no_null,
   (verbose_pass_prints_attributes freebsd
      (scripted 0x0201 ["priv-lvl=15", "service=shell"]) [Getopt.mk 'v' ""] ["name"] 0x0201
      (by decide) (by decide) (by decide) (by decide) two_attributes_no_null).2 3
      (by decide)⟩

theorem main_create_author_args {σ : Type} (L : TacLib) (C : Collab σ) (opts : List Getopt)
    (argv : List String) (m t s r : Int)
    (hmem : Call.tac_create_author m t s r ∈ (main L C opts argv).calls) :
    (m, t, s) = profile L opts := by
  unfold main at hmem
  split at hmem
  · simp at hmem
  · rename_i g hg
    obtain ⟨hm, ht, hs, _⟩ := optionLoop_some L opts _ g hg
    have hprof : profile L opts = (g.method, g.type, g.service) := by
      simp only [Globals.initial] at hm ht hs
      simp [profile, hm, ht, hs]
    rw [hprof]
    unfold runAuthorization at hmem
    split at hmem
    · simp at hmem
    · split at hmem
      · simp at hmem
      · simp only [called_calls, List.mem_cons, reduceCtorEq, false_or] at hmem
        split at hmem
        · simp at hmem
        · unfold createAuthor at hmem
          simp only [called_calls, List.mem_cons, Call.tac_create_author.injEq] at hmem
          rcases hmem with ⟨rfl, rfl, rfl, _⟩ | hmem
          · rfl
          · exfalso
            split at hmem
            · simp at hmem
            · exact setUser_calls L C (fun c => ∀ m t s r, c ≠ Call.tac_create_author m t s r)
                (by simp) (by simp) (by simp) (by simp) (by simp) (by simp) _ _ _ _ hmem
                m t s r rfl

/-- C9. For a valid command line (every option is `-v`, or `-m`, `-s`, `-t` with
a key of its table, and there is a positional argument; the codes of the tables
being non-negative): every call of `tac_create_author` in the run gets the
triple `profile`, that is each of `-m`, `-t`, `-s` resolved on its own in its
table, with the default for an omitted option; and when `tac_open` and
`tac_config` succeed, `tac_create_author` is called with that triple. Without
`-m`, `-t`, `-s` the triple is `(TAC_AUTHEN_METH_NOT_SET, 0x00,
TAC_AUTHEN_SVC_NONE)`, the same as for `-m notset -t notset -s none`. -/
theorem create_author_gets_resolved_profile {σ : Type} (L : TacLib) (C : Collab σ)
    (opts : List Getopt) (argv : List String)
    (hnn : ∀ table ∈ [methods L, types L, services L], codesNonneg table)
    (hv : validOptions L opts) (hargv : argv ≠ []) :
    (∀ m t s r, Call.tac_create_author m t s r ∈ (main L C opts argv).calls →
      (m, t, s) = profile L opts) ∧
    (∀ h0, C.tac_open = some h0 → (C.tac_config h0).2 = 0 →
      ∃ r, Call.tac_create_author (profile L opts).1 (profile L opts).2.1
        (profile L opts).2.2 r ∈ (main L C opts argv).calls) ∧
    profile L [] = (L.TAC_AUTHEN_METH_NOT_SET, 0x00, L.TAC_AUTHEN_SVC_NONE) ∧
    TAC_AUTHEN_TYPE_NOT_SET = 0x00 ∧
    profile L [Getopt.mk 'm' "notset", Getopt.mk 't' "notset", Getopt.mk 's' "none"] =
      profile L [] := by
  refine ⟨fun m t s r => main_create_author_args L C opts argv m t s r, ?_, rfl, rfl, ?_⟩
  · intro h0 hopen hcfg
    obtain ⟨g, hg⟩ := optionLoop_valid L hnn opts hv (Globals.initial L)
    obtain ⟨hm, ht, hs, _⟩ := optionLoop_some L opts _ g hg
    have hprof : profile L opts = (g.method, g.type, g.service) := by
      simp only [Globals.initial] at hm ht hs
      simp [profile, hm, ht, hs]
    have hlen : ¬ argv.length < 1 := by
      cases argv with
      | nil => exact absurd rfl hargv
      | cons x xs => simp
    refine ⟨(C.tac_create_author (C.tac_config h0).1 g.method g.type g.service).2, ?_⟩
    unfold main
    simp only [hg]
    unfold runAuthorization
    rw [if_neg hlen]
    simp only [hopen, hcfg, ne_eq, not_true_eq_false, if_false]
    unfold createAuthor
    simp [hprof]
  · simp [profile, optionValue, resolve, lookup, methods, types, services]

/-- Witness for C9: `-m krb5 -v -s ppp a=1 name` with the FreeBSD codes gives
`tac_create_author(h, TAC_AUTHEN_METH_KRB5, TAC_AUTHEN_TYPE_NOT_SET,
TAC_AUTHEN_SVC_PPP)`. -/
theorem create_author_gets_resolved_profile_witness :
    (∀ table ∈ [methods freebsd, types freebsd, services freebsd], codesNonneg table) ∧
    validOptions freebsd [Getopt.mk 'm' "krb5", Getopt.mk 'v' "", Getopt.mk 's' "ppp"] ∧
    ["a=1", "name"] ≠ [] ∧
    profile freebsd [Getopt.mk 'm' "krb5", Getopt.mk 'v' "", Getopt.mk 's' "ppp"] = (2, 0, 3) ∧
    ∃ r, Call.tac_create_author
      (profile freebsd [Getopt.mk 'm' "krb5", Getopt.mk 'v' "", Getopt.mk 's' "ppp"]).1
      (profile freebsd [Getopt.mk 'm' "krb5", Getopt.mk 'v' "", Getopt.mk 's' "ppp"]).2.1
      (profile freebsd [Getopt.mk 'm' "krb5", Getopt.mk 'v' "", Getopt.mk 's' "ppp"]).2.2 r ∈
      (main freebsd (scripted 1 [])
        [Getopt.mk 'm' "krb5", Getopt.mk 'v' "", Getopt.mk 's' "ppp"] ["a=1", "name"]).calls :=
  ⟨freebsd_codesNonneg, by decide, by decide, by decide,
   (create_author_gets_resolved_profile freebsd (scripted 1 [])
      [Getopt.mk 'm' "krb5", Getopt.mk 'v' "", Getopt.mk 's' "ppp"] ["a=1", "name"]
      freebsd_codesNonneg (by decide) (by decide)).2.1 () rfl rfl⟩

/-- Counterexample to C10: a server that answers `FAIL`. The session was
acquired (`tac_open` returned a handle), the program exits with status 1, and
`tac_close` is not among the calls it made. -/
theorem session_release_counterexample :
    Call.tac_open true ∈ (main freebsd (scripted 0x10 []) [] ["name"]).calls ∧
    (main freebsd (scripted 0x10 []) [] ["name"]).status = 1 ∧
    Call.tac_close ∉ (main freebsd (scripted 0x10 []) [] ["name"]).calls ∧
    (main freebsd (scripted 0x10 []) [] ["name"]).calls =
      [.tac_open true, .tac_config 0, .tac_create_author 0 0 0 0, .tac_set_user "name" 0,
       .tac_send_author 0x10] := by
  decide

/-- C10, amended. Every run of `main` exits with status 0 or 1. When it exits
with status 0, the session was acquired (`tac_open` returned a handle) and
`tac_close` is the last library call of the run, made once. When it exits with
status 1, on a fatal path before or after the acquisition, `tac_close` is not
called. -/
theorem session_closed_exactly_on_success {σ : Type} (L : TacLib) (C : Collab σ)
    (opts : List Getopt) (argv : List String) :
    ((main L C opts argv).status = 0 ∨ (main L C opts argv).status = 1) ∧
    ((main L C opts argv).status = 0 →
      ∃ pre, (main L C opts argv).calls = pre ++ [Call.tac_close] ∧
        Call.tac_close ∉ pre ∧ Call.tac_open true ∈ pre) ∧
    ((main L C opts argv).status = 1 → Call.tac_close ∉ (main L C opts argv).calls) := by
  rcases closes_main L C opts argv with ⟨hs, pre, hp, hn⟩ | ⟨hs, hn⟩
  · refine ⟨Or.inl hs, fun _ => ⟨pre, hp, hn, ?_⟩, fun h1 => ?_⟩
    · obtain ⟨rest, hrest⟩ := main_status_zero_opened L C opts argv hs
      rw [hp] at hrest
      cases pre with
      | nil => simp at hrest
      | cons x xs =>
        simp only [List.cons_append, List.cons.injEq] at hrest
        rw [hrest.1]
        exact List.mem_cons_self _ _
    · rw [hs] at h1
      exact absurd h1 (by decide)
  · refine ⟨Or.inr hs, fun h0 => ?_, fun _ => hn⟩
    rw [hs] at h0
    exact absurd h0 (by decide)

end Tacplus
